import Mathlib

/-! NicheHunter front end (`static/js/app.js`): a shallow embedding

The class `YouTubeAnalyzer` is browser glue: it reads values out of the DOM, keeps one
timer handle (`pollInterval`) and feeds a charting library.  The embedding below makes
the pieces of browser state that the methods touch explicit.

* Strings. A DOM string is a Lean `String` (a sequence of Unicode scalar values); its
  `.length` is the number of UTF-16 code units (`jsLength`). Strings built by `JSON.parse`
  are kept as lists of code units, since an escape may leave a lone surrogate.
* DOM. `document.getElementById(id)` for a form control is a lookup `id ↦ value`
  (`FormDocument`), `none` when no such element exists. A node list is a `List` in document
  order, a class list a list of tokens. Two setters of the platform are not plain stores: the
  `value` of a text field strips line breaks from what it is given (`stripLineBreaks`), and
  `style.width` ignores a text that is not a valid width (`cssWidthAccepts`).
* `parseInt` is the ECMAScript algorithm on exact integers, `none` standing for `NaN`.
  The source only compares its result with the constants 1, 100, 300 and 1000, all exactly
  representable as doubles, and rounding to double is monotone, so the comparisons made on
  the exact integer are the comparisons made by the program.
* Timers. The window's active timers are a table (`TimerTable`); `setTimeout` and
  `setInterval` append an entry under a fresh positive handle, `clearInterval` drops the
  entry with the given handle. Each entry records what its callback does (`TimerAction`).
  Firing is not modelled here: the statements below are about which timers exist.
* `async`. `updateAnalysisStatus` is split at its `await`: `updateAnalysisStatusStart` issues
  the `fetch`, `updateAnalysisStatusResume` is the rest of the `try` block once the snapshot
  has arrived, `updateAnalysisStatusFailed` the `catch` block.
* Numbers. Finite doubles are idealised as rationals; `NaN` and the infinities are separate
  values (`JSNumber`). The statements on metric extraction below only depend on how
  `undefined` and `NaN` propagate, which is exact. The text of a number (`numberText`) is
  fixed for `NaN`, the infinities and exactly representable integers; the printing of other
  finite numbers is a parameter of the functions that need it.
* `JSON.parse` is a recursive-descent reader of the JSON grammar (`jsonParse`).
* Counter animation. `counterTick` is one firing of the interval callback installed by
  `animateNumberUpdate`; the captured variable `current` lives in the timer's entry.
  `toLocaleString` follows en-US conventions (groups of three digits, comma separated).
* `getSessionIdFromURL` runs the pattern `\/results\/(\d+)` as an unanchored search: tried at
  every position from the left, the digit run taken greedily.
-/

namespace NicheHunter

/-! ## JavaScript string primitives -/

/-- ECMAScript `WhiteSpace` and `LineTerminator` code points: what `String.prototype.trim`
and the leading-blank skipping of `parseInt` remove. -/
def isJsWhiteSpace (c : Char) : Bool :=
  let n := c.toNat
  n == 0x09 || n == 0x0A || n == 0x0B || n == 0x0C || n == 0x0D || n == 0x20 || n == 0xA0
    || n == 0x1680 || (0x2000 ≤ n && n ≤ 0x200A) || n == 0x2028 || n == 0x2029
    || n == 0x202F || n == 0x205F || n == 0x3000 || n == 0xFEFF

/-- `TrimString(s, start)`. -/
def trimStart (cs : List Char) : List Char :=
  cs.dropWhile isJsWhiteSpace

/-- `TrimString(s, end)`. -/
def trimEnd (cs : List Char) : List Char :=
  (cs.reverse.dropWhile isJsWhiteSpace).reverse

/-- `String.prototype.trim`. -/
def trim (cs : List Char) : List Char :=
  trimEnd (trimStart cs)

/-- Number of UTF-16 code units that encode one scalar value. -/
def utf16Units (c : Char) : Nat :=
  if c.toNat < 0x10000 then 1 else 2

/-- The `.length` of a JavaScript string: its number of UTF-16 code units. -/
def jsLength (cs : List Char) : Nat :=
  (cs.map utf16Units).sum

/-- Value of a character as a digit in radix up to 36 (`0-9`, `a-z`, `A-Z`). -/
def digitValue (c : Char) : Option Nat :=
  let n := c.toNat
  if 48 ≤ n ∧ n ≤ 57 then some (n - 48)
  else if 97 ≤ n ∧ n ≤ 122 then some (n - 87)
  else if 65 ≤ n ∧ n ≤ 90 then some (n - 55)
  else none

/-- Whether `c` is a digit of radix `R`. -/
def isRadixDigit (R : Nat) (c : Char) : Bool :=
  match digitValue c with
  | some d => decide (d < R)
  | none => false

/-- The mathematical integer denoted by a run of radix-`R` digits. -/
def digitsValue (R : Nat) (Z : List Char) : Nat :=
  Z.foldl (fun acc c => acc * R + (digitValue c).getD 0) 0

/-- The sign step of `parseInt`: a leading `-` makes the sign negative. -/
def parseSign (S : List Char) : Int :=
  match S with
  | '-' :: _ => -1
  | _ => 1

/-- The step of `parseInt` that removes one leading `+` or `-`. -/
def dropSign (S : List Char) : List Char :=
  match S with
  | '-' :: r => r
  | '+' :: r => r
  | _ => S

/-- The radix step of `parseInt(string)` called without a radix: `0x`/`0X` selects 16 and is
stripped, anything else is read in radix 10. -/
def splitRadix (S : List Char) : Nat × List Char :=
  match S with
  | '0' :: 'x' :: r => (16, r)
  | '0' :: 'X' :: r => (16, r)
  | _ => (10, S)

/-- ECMAScript `parseInt(string)` with no radix argument; `none` is `NaN`. The result is the
exact integer denoted by the digits that were read. -/
def parseInt (s : String) : Option Int :=
  let S := trimStart s.toList
  let sign := parseSign S
  let S := dropSign S
  let R := (splitRadix S).1
  let S := (splitRadix S).2
  let Z := S.takeWhile (isRadixDigit R)
  if Z.isEmpty then none else some (sign * (digitsValue R Z : Int))

/-! ## Form validation (`validateAnalysisForm`) -/

/-- The form controls of the page: element id ↦ the element's `value`, `none` when
`document.getElementById` finds no element. -/
abbrev FormDocument := String → Option String

/-- One entry of the `numericFields` table; `max` is `none` where the literal has no `max`. -/
structure NumericField where
  id : String
  min : Int
  max : Option Int
  name : String
  deriving DecidableEq

/-- The `numericFields` table of `validateAnalysisForm`. -/
def numericFields : List NumericField :=
  [ { id := "min_views_per_day", min := 1000, max := none, name := "Minimum Views per Day" },
    { id := "max_duration_seconds", min := 1, max := some 300, name := "Max Duration" },
    { id := "max_channel_videos", min := 1, max := some 100, name := "Max Channel Videos" } ]

/-- The text of `field.max || 'unlimited'` inside the template literal. -/
def maxText (m : Option Int) : String :=
  match m with
  | some k => if k != 0 then toString k else "unlimited"
  | none => "unlimited"

/-- The message pushed for a numeric field. -/
def numericMessage (field : NumericField) : String :=
  field.name ++ " must be between " ++ toString field.min ++ " and " ++ maxText field.max

/-- The condition `isNaN(value) || value < field.min || (field.max && value > field.max)`. -/
def numericViolation (field : NumericField) (value : Option Int) : Bool :=
  match value with
  | none => true
  | some v =>
    decide (v < field.min) ||
      (match field.max with
       | some k => k != 0 && decide (v > k)
       | none => false)

/-- The message pushed for the session name. -/
def sessionNameMessage : String :=
  "Session name must be at least 3 characters long"

/-- The condition `!sessionName.value || sessionName.value.trim().length < 3`. -/
def sessionNameViolation (value : String) : Bool :=
  value.toList.isEmpty || decide (jsLength (trim value.toList) < 3)

/-- What `validateAnalysisForm` has accumulated so far: the `errors` array and the ids of
the elements handed to `highlightError`, both in call order. -/
structure ValidationRun where
  errors : List String
  highlighted : List String

/-- The session-name block of `validateAnalysisForm`. -/
def sessionNameStep (doc : FormDocument) (run : ValidationRun) : ValidationRun :=
  match doc "session_name" with
  | some value =>
    if sessionNameViolation value then
      { errors := run.errors ++ [sessionNameMessage],
        highlighted := run.highlighted ++ ["session_name"] }
    else run
  | none => run

/-- The body of the `numericFields.forEach` callback. -/
def numericFieldStep (doc : FormDocument) (run : ValidationRun) (field : NumericField) :
    ValidationRun :=
  match doc field.id with
  | some text =>
    if numericViolation field (parseInt text) then
      { errors := run.errors ++ [numericMessage field],
        highlighted := run.highlighted ++ [field.id] }
    else run
  | none => run

/-- Outcome of one call of `validateAnalysisForm`: the returned boolean, the final `errors`
array, the highlighted element ids and the argument of `showFormErrors` when it was called. -/
structure ValidationOutcome where
  result : Bool
  errors : List String
  highlighted : List String
  shown : Option (List String)

/-- The state of `errors` when `validateAnalysisForm` reaches its final test: the
session-name block, then `numericFields.forEach`. -/
def collectErrors (doc : FormDocument) : ValidationRun :=
  numericFields.foldl (numericFieldStep doc) (sessionNameStep doc ⟨[], []⟩)

/-- The method `validateAnalysisForm`. -/
def validateAnalysisForm (doc : FormDocument) : ValidationOutcome :=
  let run := collectErrors doc
  if run.errors.length > 0 then
    { result := false, errors := run.errors, highlighted := run.highlighted,
      shown := some run.errors }
  else
    { result := true, errors := run.errors, highlighted := run.highlighted, shown := none }

/-! ### The rules of the form, stated per rule -/

/-- The session-name rule is violated: the element exists and its value fails the test. -/
def sessionViolated (doc : FormDocument) : Bool :=
  match doc "session_name" with
  | some value => sessionNameViolation value
  | none => false

/-- The rule of a numeric field is violated: the element exists and its value fails the
test. -/
def fieldViolated (doc : FormDocument) (field : NumericField) : Bool :=
  match doc field.id with
  | some text => numericViolation field (parseInt text)
  | none => false

/-- One message per violated rule: session name first, then the numeric fields in table
order. -/
def violationMessages (doc : FormDocument) : List String :=
  (if sessionViolated doc then [sessionNameMessage] else [])
    ++ (numericFields.filter (fieldViolated doc)).map numericMessage

/-- An integer numeral: an optional sign followed by one or more decimal digits and nothing
else. -/
def isIntegerNumeral (text : String) : Bool :=
  let body := dropSign text.toList
  !body.isEmpty && body.all (fun c => decide (48 ≤ c.toNat ∧ c.toNat ≤ 57))

/-- A form that holds exactly one control, `id`, with value `text`. -/
def singleField (id text : String) : FormDocument :=
  fun i => if i = id then some text else none

/-! ## Timers (`setTimeout`, `setInterval`, `clearInterval`) -/

/-- What a pending timer callback of this program does when it fires. -/
inductive TimerAction where
  /-- `() => this.updateAnalysisStatus(sessionId)` of `startStatusPolling`. -/
  | pollStatus (sessionId : String)
  /-- `() => window.location.reload()` of `handleAnalysisComplete`. -/
  | reloadPage
  /-- `() => element.style.opacity = '1'` of `animateStatusText`. -/
  | restoreOpacity
  /-- The auto-dismiss callback of `showAlert`, for the alert at this position in `body`. -/
  | removeAlert (alert : Nat)
  /-- The counting callback of `animateNumberUpdate` with its captured variables. -/
  | counterStep (elementId : String) (increment newValue current : Int)
  /-- `() => btn.style.transform = 'scale(1)'` of the keyword click handler. -/
  | restoreScale (button : Nat)
  /-- `() => element.classList.remove('is-invalid')` of `highlightError`. -/
  | clearInvalid (elementId : String)
  /-- `() => element.classList.remove('text-success')` of the counting callback. -/
  | clearSuccess (elementId : String)
  deriving DecidableEq

/-- One entry of the window's list of active timers. `delay` is the timeout argument in
milliseconds as passed by the program. -/
structure Timer where
  handle : Nat
  repeating : Bool
  delay : ℚ
  action : TimerAction
  deriving DecidableEq

/-- The window's active timers. Handles are issued in increasing order starting from 1, as
the HTML standard requires them to be positive and unused. -/
structure TimerTable where
  active : List Timer
  lastHandle : Nat

/-- The calls `setTimeout(callback, delay)` (`repeating = false`) and
`setInterval(callback, delay)` (`repeating = true`): returns the new handle. -/
def TimerTable.setTimer (tt : TimerTable) (repeating : Bool) (delay : ℚ)
    (action : TimerAction) : Nat × TimerTable :=
  (tt.lastHandle + 1,
    { active := tt.active ++ [⟨tt.lastHandle + 1, repeating, delay, action⟩],
      lastHandle := tt.lastHandle + 1 })

/-- The call `clearInterval(handle)`: the entry with that handle, if any, is dropped. -/
def TimerTable.clear (tt : TimerTable) (handle : Nat) : TimerTable :=
  { tt with active := tt.active.filter (fun t => t.handle != handle) }

/-- Handles of active timers are positive and have been issued. -/
def TimerTable.WellFormed (tt : TimerTable) : Prop :=
  ∀ t ∈ tt.active, 1 ≤ t.handle ∧ t.handle ≤ tt.lastHandle

/-! ## Keyword picker (`handleKeywordSelection`) -/

/-- `DOMTokenList.remove(...tokens)`. -/
def classListRemove (classes tokens : List String) : List String :=
  tokens.foldl (fun acc t => acc.filter (fun c => c != t)) classes

/-- `DOMTokenList.add(...tokens)`: a token already present is not added again. -/
def classListAdd (classes tokens : List String) : List String :=
  tokens.foldl (fun acc t => if acc.contains t then acc else acc ++ [t]) classes

/-- A `.keyword-btn` element: its class list, its `data-keyword` attribute (`none` when the
attribute is missing, so that `dataset.keyword` is `undefined`) and `style.transform`. -/
structure KeywordButton where
  classList : List String
  keyword : Option String
  transform : String

/-- The string stored by `searchInput.value = keyword`: `undefined` becomes the text
`undefined`. -/
def keywordText (keyword : Option String) : String :=
  match keyword with
  | some k => k
  | none => "undefined"

/-- Body of the inner `keywordButtons.forEach(b => ...)`. -/
def deselectButton (b : KeywordButton) : KeywordButton :=
  let removed := classListRemove b.classList ["active", "btn-primary"]
  { b with classList := classListAdd removed ["btn-outline-secondary"] }

/-- The statements of the click handler that act on `btn` after the loop. -/
def selectButton (b : KeywordButton) : KeywordButton :=
  let removed := classListRemove b.classList ["btn-outline-secondary"]
  { b with classList := classListAdd removed ["btn-primary", "active"],
           transform := "scale(0.95)" }

/-- The part of the page the keyword picker works on: the static node list
`querySelectorAll('.keyword-btn')` in document order, the value of `#search_query` (`none`
when the input is missing) and the timers. -/
structure KeywordPage where
  buttons : List KeywordButton
  searchInput : Option String
  timers : TimerTable

/-- A line break: line feed or carriage return. -/
def isLineBreak (c : Char) : Bool :=
  c.toNat == 0x0A || c.toNat == 0x0D

/-- The value sanitization that the setter of `value` applies on a text field: line feeds and
carriage returns are stripped from the string. -/
def stripLineBreaks (text : String) : String :=
  String.mk (text.toList.filter (fun c => !isLineBreak c))

/-- A click on the `i`-th keyword button after `handleKeywordSelection` ran. The listener
exists only when the node list is not empty and the search input exists. The input
`#search_query` is a text field, so `searchInput.value = keyword` stores the keyword with its
line breaks stripped. -/
def keywordClick (page : KeywordPage) (i : Nat) : KeywordPage :=
  match page.searchInput, page.buttons[i]? with
  | some _, some btn =>
    { buttons := List.modify selectButton i (page.buttons.map deselectButton),
      searchInput := some (stripLineBreaks (keywordText btn.keyword)),
      timers := (page.timers.setTimer false 150 (TimerAction.restoreScale i)).2 }
  | _, _ => page

/-- Whether a button carries the class `cls`. -/
def hasClass (cls : String) (b : KeywordButton) : Bool :=
  b.classList.contains cls

/-- A page with two keyword buttons, the first one selected. -/
def sampleKeywordPage : KeywordPage :=
  { buttons :=
      [ ⟨["keyword-btn", "btn-primary", "active"], some "cooking", ""⟩,
        ⟨["keyword-btn", "btn-outline-secondary"], some "fitness", ""⟩ ],
    searchInput := some "cooking",
    timers := ⟨[], 0⟩ }

/-- A page with one keyword button whose `data-keyword` holds a line feed. -/
def lineBreakKeywordPage : KeywordPage :=
  { buttons := [ ⟨["keyword-btn", "btn-outline-secondary"], some "home\nworkout", ""⟩ ],
    searchInput := some "",
    timers := ⟨[], 0⟩ }

/-! ## Numbers as text -/

/-- A JavaScript number. Finite doubles are idealised as exact rationals (`real`); `nan` and
the two infinities are kept apart. Signed zeros are not distinguished. -/
inductive JSNumber where
  | nan
  | negInf
  | posInf
  | real (q : ℚ)
  deriving DecidableEq

/-- The operator `-` on numbers. -/
def jsSub (a b : JSNumber) : JSNumber :=
  match a, b with
  | JSNumber.nan, _ => JSNumber.nan
  | _, JSNumber.nan => JSNumber.nan
  | JSNumber.real x, JSNumber.real y => JSNumber.real (x - y)
  | JSNumber.real _, JSNumber.posInf => JSNumber.negInf
  | JSNumber.real _, JSNumber.negInf => JSNumber.posInf
  | JSNumber.posInf, JSNumber.real _ => JSNumber.posInf
  | JSNumber.negInf, JSNumber.real _ => JSNumber.negInf
  | JSNumber.posInf, JSNumber.negInf => JSNumber.posInf
  | JSNumber.negInf, JSNumber.posInf => JSNumber.negInf
  | JSNumber.posInf, JSNumber.posInf => JSNumber.nan
  | JSNumber.negInf, JSNumber.negInf => JSNumber.nan

/-- The text of a number inside a template literal or as an attribute value
(`Number::toString`). It is fixed here for `NaN`, the infinities and the integers that a
double holds exactly (magnitude up to 2^53), which print in plain decimal. For any other
finite number the text is the shortest decimal that reads back as the same double, which
depends on the binary value: that case is left to the parameter `printReal`. -/
def numberText (printReal : ℚ → String) (n : JSNumber) : String :=
  match n with
  | JSNumber.nan => "NaN"
  | JSNumber.posInf => "Infinity"
  | JSNumber.negInf => "-Infinity"
  | JSNumber.real q =>
    if q.den = 1 ∧ q.num.natAbs ≤ 9007199254740992 then toString q.num else printReal q

/-- Whether the text `<n>%` is a valid value of the CSS property `width`: a percentage that
is not negative. The texts `NaN%`, `Infinity%` and `-Infinity%` are not percentages, and a
negative percentage is out of range for `width`. -/
def cssWidthAccepts (n : JSNumber) : Bool :=
  match n with
  | JSNumber.real q => decide (0 ≤ q)
  | _ => false

/-- The first fraction digits of `f`, for `0 ≤ f < 1`, up to `fuel` of them, stopping when
nothing is left. -/
def fractionDigits : Nat → ℚ → List Char
  | 0, _ => []
  | fuel + 1, f =>
    if f = 0 then []
    else
      let d := (f * 10).floor.toNat
      Char.ofNat (48 + d) :: fractionDigits fuel (f * 10 - d)

/-- A printer for the samples: a finite decimal in plain notation (sign, integer part, and
the fraction digits after a point when there are any, 20 of them at most). This is what
JavaScript prints for a number of up to 15 significant digits whose magnitude lies between
1e-6 and 1e21. -/
def samplePrinter (q : ℚ) : String :=
  let a := |q|
  let digits := fractionDigits 20 (a - a.floor)
  (if q < 0 then "-" else "") ++ toString a.floor.toNat
    ++ (if digits.isEmpty then "" else "." ++ String.mk digits)

/-! ## Status poller -/

/-- The `#progressBar` element: `style.width` and the `aria-valuenow` attribute. -/
structure ProgressBar where
  width : String
  ariaValueNow : String

/-- The `#statusText` element: `textContent` and `style.opacity`. -/
structure StatusText where
  textContent : String
  opacity : String

/-- An alert built by `createAlert(type, title, message)` and appended to `body`. -/
structure Alert where
  type : String
  title : String
  message : String

/-- The JSON document answered by `/api/analysis_status/<id>`, typed as the HTTP contract
gives it: `progress` is a number, `status` a string, the other members may be missing
(`none` is `undefined`). The counts are integers, taken in the range that a double holds
exactly. -/
structure StatusSnapshot where
  progress : JSNumber
  current_status : Option String
  status : String
  total_videos_analyzed : Option Int
  total_channels_found : Option Int
  total_niches_identified : Option Int

/-- The state the poller reads and writes: the field `pollInterval` (`none` is `null`), the
window's timers, the URLs handed to `fetch`, the progress elements, the doughnut data of
`charts.progress` (`none` when the chart was not created), the `textContent` and the class
list of the counter elements by id, the alerts appended to `body` and the console lines. -/
structure Analyzer where
  pollInterval : Option Nat
  timers : TimerTable
  fetches : List String
  progressBar : Option ProgressBar
  progressText : Option String
  statusText : Option StatusText
  progressChart : Option (List JSNumber)
  counters : String → Option String
  counterClasses : String → List String
  alerts : List Alert
  console : List String

/-- The call `setTimeout(callback, delay)` on the analyzer's window. -/
def Analyzer.setTimeout (s : Analyzer) (delay : ℚ) (action : TimerAction) : Analyzer :=
  { s with timers := (s.timers.setTimer false delay action).2 }

/-- The synchronous part of `updateAnalysisStatus(sessionId)`: the function runs up to its
first `await`, that is, it issues the `fetch`. -/
def updateAnalysisStatusStart (sessionId : String) (s : Analyzer) : Analyzer :=
  { s with fetches := s.fetches ++ ["/api/analysis_status/" ++ sessionId] }

/-- The method `startStatusPolling`. -/
def startStatusPolling (sessionId : String) (s : Analyzer) : Analyzer :=
  let s1 :=
    match s.pollInterval with
    | some h => if h != 0 then { s with timers := s.timers.clear h } else s
    | none => s
  let set := s1.timers.setTimer true 3000 (TimerAction.pollStatus sessionId)
  let s2 := { s1 with pollInterval := some set.1, timers := set.2 }
  updateAnalysisStatusStart sessionId s2

/-- The method `animateStatusText` applied to `#statusText`. -/
def animateStatusText (s : Analyzer) : Analyzer :=
  let s1 := { s with statusText := s.statusText.map (fun (e : StatusText) => { e with opacity := "0.7" }) }
  s1.setTimeout 200 TimerAction.restoreOpacity

/-- The method `animateNumberUpdate(element, newValue)` for the element with id
`elementId` whose `textContent` is `text`; `parseInt(text) || 0` turns `NaN` into 0. -/
def animateNumberUpdate (elementId text : String) (newValue : Int) (s : Analyzer) :
    Analyzer :=
  let currentValue : Int := (parseInt text).getD 0
  if currentValue = newValue then s
  else
    let increment : Int := if newValue > currentValue then 1 else -1
    let duration : ℚ := min 1000 (((newValue - currentValue).natAbs : ℚ) * 50)
    let steps : ℚ := ((newValue - currentValue).natAbs : ℚ)
    let stepDuration : ℚ := duration / steps
    { s with timers :=
        (s.timers.setTimer true stepDuration
          (TimerAction.counterStep elementId increment newValue currentValue)).2 }

/-- One round of the `forEach` of `updateAnalysisStats`: the element must exist and the
value must not be `undefined`. -/
def updateStat (s : Analyzer) (entry : String × Option Int) : Analyzer :=
  match s.counters entry.1, entry.2 with
  | some text, some value => animateNumberUpdate entry.1 text value s
  | _, _ => s

/-- The method `updateAnalysisStats`. -/
def updateAnalysisStats (data : StatusSnapshot) (s : Analyzer) : Analyzer :=
  [ ("total_videos_analyzed", data.total_videos_analyzed),
    ("total_channels_found", data.total_channels_found),
    ("total_niches_identified", data.total_niches_identified) ].foldl updateStat s

/-- The method `showAlert`: the alert is appended to `body` and its removal is scheduled. -/
def showAlert (alert : Alert) (s : Analyzer) : Analyzer :=
  let s1 := { s with alerts := s.alerts ++ [alert] }
  s1.setTimeout 5000 (TimerAction.removeAlert s.alerts.length)

/-- The method `showSuccessMessage`. -/
def showSuccessMessage (s : Analyzer) : Analyzer :=
  showAlert ⟨"success", "Analysis Completed!",
    "Your niche analysis has finished successfully. Refreshing results..."⟩ s

/-- The method `showErrorMessage`. -/
def showErrorMessage (s : Analyzer) : Analyzer :=
  showAlert ⟨"danger", "Analysis Failed",
    "There was an error during analysis. Please try again or check your API configuration."⟩ s

/-- The method `handleAnalysisComplete`. -/
def handleAnalysisComplete (status : String) (s : Analyzer) : Analyzer :=
  let s1 :=
    match s.pollInterval with
    | some h =>
      if h != 0 then { s with timers := s.timers.clear h, pollInterval := none } else s
    | none => s
  if status = "completed" then
    (showSuccessMessage s1).setTimeout 2000 TimerAction.reloadPage
  else if status = "failed" then
    showErrorMessage s1
  else s1

/-- The progress block of `updateAnalysisStatus`: runs when both `#progressBar` and
`#progressText` exist. The assignment to `style.width` takes effect only when the text is a
valid width; otherwise the style declaration ignores it and the bar keeps its width. The
attribute and the text content take any text. -/
def updateProgress (printReal : ℚ → String) (data : StatusSnapshot) (s : Analyzer) :
    Analyzer :=
  match s.progressBar, s.progressText with
  | some bar, some _ =>
    { s with
      progressBar := some
        { width :=
            if cssWidthAccepts data.progress then numberText printReal data.progress ++ "%"
            else bar.width,
          ariaValueNow := numberText printReal data.progress },
      progressText := some (numberText printReal data.progress ++ "%"),
      progressChart := s.progressChart.map
        (fun _ => [data.progress, jsSub (JSNumber.real 100) data.progress]) }
  | _, _ => s

/-- The text of `data.current_status || 'Processing...'`. -/
def statusLine (data : StatusSnapshot) : String :=
  match data.current_status with
  | some t => if t.toList.isEmpty then "Processing..." else t
  | none => "Processing..."

/-- The status-text block of `updateAnalysisStatus`. -/
def updateStatusText (data : StatusSnapshot) (s : Analyzer) : Analyzer :=
  match s.statusText with
  | some e =>
    animateStatusText { s with statusText := some { e with textContent := statusLine data } }
  | none => s

/-- The rest of `updateAnalysisStatus` once `fetch` and `response.json()` have delivered the
snapshot `data`. -/
def updateAnalysisStatusResume (printReal : ℚ → String) (data : StatusSnapshot)
    (s : Analyzer) : Analyzer :=
  let s1 := updateProgress printReal data s
  let s2 := updateStatusText data s1
  let s3 := updateAnalysisStats data s2
  if data.status = "completed" ∨ data.status = "failed" then
    handleAnalysisComplete data.status s3
  else s3

/-- The `catch` branch of `updateAnalysisStatus`, taken when `fetch` or `response.json()`
rejects: `console.error`, then `handleStatusError`. -/
def updateAnalysisStatusFailed (s : Analyzer) : Analyzer :=
  { s with console := s.console ++
      ["Error fetching analysis status:", "Status polling error - will retry..."] }

/-- Whether a timer is a polling timer of `startStatusPolling`. -/
def isPollTimer (t : Timer) : Bool :=
  match t.action with
  | TimerAction.pollStatus _ => true
  | _ => false

/-- Whether a timer is the page reload of `handleAnalysisComplete`. -/
def isReloadTimer (t : Timer) : Bool :=
  match t.action with
  | TimerAction.reloadPage => true
  | _ => false

/-- The active polling timers. -/
def pollTimers (s : Analyzer) : List Timer :=
  s.timers.active.filter isPollTimer

/-- The timers of `after` that were set since the state `before`: those whose handle was
issued later. -/
def scheduledSince (before after : Analyzer) : List Timer :=
  after.timers.active.filter (fun t => decide (before.timers.lastHandle < t.handle))

/-- The poller's invariant: the timer table is well formed, `pollInterval` is `null` or a
positive handle, and every active polling timer is the one held in `pollInterval` (so at
most one is active). -/
def PollerConsistent (s : Analyzer) : Prop :=
  s.timers.WellFormed ∧ s.pollInterval ≠ some 0 ∧
    ∀ t ∈ s.timers.active, isPollTimer t = true → s.pollInterval = some t.handle

/-- A results page in mid-analysis: one polling timer (handle 1) held in `pollInterval`,
progress elements present, one counter showing 5. -/
def samplePolling : Analyzer :=
  { pollInterval := some 1,
    timers := ⟨[⟨1, true, 3000, TimerAction.pollStatus "7"⟩], 1⟩,
    fetches := ["/api/analysis_status/7"],
    progressBar := some ⟨"10%", "10"⟩,
    progressText := some "10%",
    statusText := some ⟨"Starting", "1"⟩,
    progressChart := some [JSNumber.real 10, JSNumber.real 90],
    counters := fun id => if id = "total_videos_analyzed" then some "5" else none,
    counterClasses := fun _ => [],
    alerts := [],
    console := [] }

/-- A snapshot of a finished analysis. -/
def sampleCompleted : StatusSnapshot :=
  { progress := JSNumber.real 100, current_status := some "Done",
    status := "completed",
    total_videos_analyzed := some 8, total_channels_found := none,
    total_niches_identified := none }

/-- A snapshot of a failed analysis. -/
def sampleFailed : StatusSnapshot :=
  { progress := JSNumber.real 40, current_status := some "Quota exceeded",
    status := "failed",
    total_videos_analyzed := some 8, total_channels_found := none,
    total_niches_identified := none }

/-- The state `s'` comes from `s` by display updates that may set timers, none of them a
polling timer or a page reload, and leave `pollInterval` alone. -/
def Extends (s s' : Analyzer) : Prop :=
  s'.pollInterval = s.pollInterval ∧ s.timers.lastHandle ≤ s'.timers.lastHandle ∧
    ∃ added, s'.timers.active = s.timers.active ++ added ∧
      ∀ t ∈ added, s.timers.lastHandle < t.handle ∧ t.handle ≤ s'.timers.lastHandle ∧
        isPollTimer t = false ∧ isReloadTimer t = false

/-! ## JavaScript values and `JSON.parse` -/

/-- A JavaScript value as far as this program meets one: `undefined`, and what `JSON.parse`
can build. A string is its sequence of UTF-16 code units (an escape such as `\ud800` may
leave a lone surrogate); an object is its list of members in source order. -/
inductive JSValue where
  | undefined
  | null
  | bool (b : Bool)
  | number (n : JSNumber)
  | string (units : List Nat)
  | array (items : List JSValue)
  | object (members : List (List Nat × JSValue))

/-- The exceptions this program can meet. -/
inductive JSError where
  | syntaxError
  | typeError
  deriving DecidableEq

/-- The UTF-16 code units of one scalar value. -/
def utf16Encode (c : Char) : List Nat :=
  if c.toNat < 0x10000 then [c.toNat]
  else [0xD800 + (c.toNat - 0x10000) / 0x400, 0xDC00 + (c.toNat - 0x10000) % 0x400]

/-- The UTF-16 code units of a string. -/
def utf16 (s : String) : List Nat :=
  s.toList.flatMap utf16Encode

/-- JSON white space: tab, line feed, carriage return, space. -/
def isJsonWhiteSpace (c : Char) : Bool :=
  c.toNat == 0x09 || c.toNat == 0x0A || c.toNat == 0x0D || c.toNat == 0x20

/-- Skips JSON white space. -/
def skipWs (cs : List Char) : List Char :=
  cs.dropWhile isJsonWhiteSpace

/-- A decimal digit. -/
def isDecimalDigit (c : Char) : Bool :=
  decide (48 ≤ c.toNat ∧ c.toNat ≤ 57)

/-- The integer part of a JSON number: `0`, or a digit `1-9` followed by digits. -/
def parseJsonInt (cs : List Char) : Option (Nat × List Char) :=
  match cs with
  | [] => none
  | c :: r =>
    if c.toNat = 48 then some (0, r)
    else if isDecimalDigit c then
      some (digitsValue 10 (cs.takeWhile isDecimalDigit), cs.dropWhile isDecimalDigit)
    else none

/-- The optional fraction of a JSON number: `.` followed by one or more digits. -/
def parseJsonFrac (cs : List Char) : Option (ℚ × List Char) :=
  match cs with
  | '.' :: r =>
    let ds := r.takeWhile isDecimalDigit
    if ds.isEmpty then none
    else some ((digitsValue 10 ds : ℚ) / (10 : ℚ) ^ ds.length, r.dropWhile isDecimalDigit)
  | _ => some (0, cs)

/-- The digits of an exponent, after the optional sign. -/
def parseJsonExpDigits (negative : Bool) (cs : List Char) : Option (Int × List Char) :=
  let ds := cs.takeWhile isDecimalDigit
  if ds.isEmpty then none
  else
    some ((if negative then -(digitsValue 10 ds : Int) else (digitsValue 10 ds : Int)),
      cs.dropWhile isDecimalDigit)

/-- The optional exponent of a JSON number: `e` or `E`, an optional sign, digits. -/
def parseJsonExp (cs : List Char) : Option (Int × List Char) :=
  match cs with
  | [] => some (0, cs)
  | c :: r =>
    if c = 'e' ∨ c = 'E' then
      match r with
      | '+' :: r1 => parseJsonExpDigits false r1
      | '-' :: r1 => parseJsonExpDigits true r1
      | _ => parseJsonExpDigits false r
    else some (0, cs)

/-- A JSON number, read as the exact rational it denotes. -/
def parseJsonNumber (cs : List Char) : Option (ℚ × List Char) :=
  let negative := match cs with
    | '-' :: _ => true
    | _ => false
  let body := match cs with
    | '-' :: r => r
    | _ => cs
  match parseJsonInt body with
  | none => none
  | some (i, r1) =>
    match parseJsonFrac r1 with
    | none => none
    | some (f, r2) =>
      match parseJsonExp r2 with
      | none => none
      | some (e, r3) =>
        let magnitude : ℚ := ((i : ℚ) + f) * (10 : ℚ) ^ e
        some ((if negative then -magnitude else magnitude), r3)

/-- The code unit written by a `\uXXXX` escape. -/
def hexUnit (a b c d : Char) : Option Nat :=
  match digitValue a, digitValue b, digitValue c, digitValue d with
  | some x, some y, some z, some w =>
    if x < 16 ∧ y < 16 ∧ z < 16 ∧ w < 16 then some (((x * 16 + y) * 16 + z) * 16 + w)
    else none
  | _, _, _, _ => none

/-- The code unit written by a one-character escape. -/
def simpleEscape (c : Char) : Option Nat :=
  if c = '"' then some 0x22
  else if c = '\\' then some 0x5C
  else if c = '/' then some 0x2F
  else if c = 'b' then some 0x08
  else if c = 'f' then some 0x0C
  else if c = 'n' then some 0x0A
  else if c = 'r' then some 0x0D
  else if c = 't' then some 0x09
  else none

/-- The rest of a JSON string after its opening quote: the code units up to the closing
quote and what follows it. The fuel bounds the number of characters read. -/
def parseJsonString : Nat → List Char → List Nat → Option (List Nat × List Char)
  | 0, _, _ => none
  | _ + 1, [], _ => none
  | fuel + 1, c :: r, acc =>
    if c = '"' then some (acc, r)
    else if c = '\\' then
      match r with
      | 'u' :: a :: b :: c1 :: d :: r1 =>
        match hexUnit a b c1 d with
        | some u => parseJsonString fuel r1 (acc ++ [u])
        | none => none
      | e :: r1 =>
        match simpleEscape e with
        | some u => parseJsonString fuel r1 (acc ++ [u])
        | none => none
      | [] => none
    else if c.toNat < 0x20 then none
    else parseJsonString fuel r (acc ++ utf16Encode c)

mutual

/-- A JSON value, white space before it skipped. The fuel bounds the nesting and the number
of elements; every call consumes at least one character, so the length of the text plus one
is enough. -/
def parseJsonValue : Nat → List Char → Option (JSValue × List Char)
  | 0, _ => none
  | fuel + 1, cs =>
    match skipWs cs with
    | 'n' :: 'u' :: 'l' :: 'l' :: r => some (JSValue.null, r)
    | 't' :: 'r' :: 'u' :: 'e' :: r => some (JSValue.bool true, r)
    | 'f' :: 'a' :: 'l' :: 's' :: 'e' :: r => some (JSValue.bool false, r)
    | '"' :: r =>
      match parseJsonString (r.length + 1) r [] with
      | some (units, r1) => some (JSValue.string units, r1)
      | none => none
    | '[' :: r =>
      match skipWs r with
      | ']' :: r1 => some (JSValue.array [], r1)
      | _ => parseJsonElements fuel r []
    | '{' :: r =>
      match skipWs r with
      | '}' :: r1 => some (JSValue.object [], r1)
      | _ => parseJsonMembers fuel r []
    | rest =>
      match parseJsonNumber rest with
      | some (q, r1) => some (JSValue.number (JSNumber.real q), r1)
      | none => none

/-- The elements of a non-empty JSON array, after `[` or `,`. -/
def parseJsonElements : Nat → List Char → List JSValue → Option (JSValue × List Char)
  | 0, _, _ => none
  | fuel + 1, cs, acc =>
    match parseJsonValue fuel cs with
    | none => none
    | some (v, r) =>
      match skipWs r with
      | ',' :: r1 => parseJsonElements fuel r1 (acc ++ [v])
      | ']' :: r1 => some (JSValue.array (acc ++ [v]), r1)
      | _ => none

/-- The members of a non-empty JSON object, after `{` or `,`. -/
def parseJsonMembers : Nat → List Char → List (List Nat × JSValue) →
    Option (JSValue × List Char)
  | 0, _, _ => none
  | fuel + 1, cs, acc =>
    match skipWs cs with
    | '"' :: r =>
      match parseJsonString (r.length + 1) r [] with
      | none => none
      | some (key, r1) =>
        match skipWs r1 with
        | ':' :: r2 =>
          match parseJsonValue fuel r2 with
          | none => none
          | some (v, r3) =>
            match skipWs r3 with
            | ',' :: r4 => parseJsonMembers fuel r4 (acc ++ [(key, v)])
            | '}' :: r4 => some (JSValue.object (acc ++ [(key, v)]), r4)
            | _ => none
        | _ => none
    | _ => none

end

/-- `JSON.parse(text)`: the text must be one JSON value with optional white space around
it; anything else throws a `SyntaxError`. -/
def jsonParse (text : String) : Except JSError JSValue :=
  match parseJsonValue (text.toList.length + 1) text.toList with
  | some (v, rest) => if (skipWs rest).isEmpty then Except.ok v else Except.error JSError.syntaxError
  | none => Except.error JSError.syntaxError
/-! ## Metric extraction (`extractMetricsData`, `normalizeMetric`) -/

/-- The operator `/` on numbers. -/
def jsDiv (a b : JSNumber) : JSNumber :=
  match a, b with
  | JSNumber.nan, _ => JSNumber.nan
  | _, JSNumber.nan => JSNumber.nan
  | JSNumber.real x, JSNumber.real y =>
    if y = 0 then
      (if x = 0 then JSNumber.nan else if 0 < x then JSNumber.posInf else JSNumber.negInf)
    else JSNumber.real (x / y)
  | JSNumber.real _, _ => JSNumber.real 0
  | JSNumber.posInf, JSNumber.real y => if 0 ≤ y then JSNumber.posInf else JSNumber.negInf
  | JSNumber.negInf, JSNumber.real y => if 0 ≤ y then JSNumber.negInf else JSNumber.posInf
  | _, _ => JSNumber.nan

/-- The operator `*` on numbers. -/
def jsMul (a b : JSNumber) : JSNumber :=
  match a, b with
  | JSNumber.nan, _ => JSNumber.nan
  | _, JSNumber.nan => JSNumber.nan
  | JSNumber.real x, JSNumber.real y => JSNumber.real (x * y)
  | JSNumber.real x, JSNumber.posInf =>
    if x = 0 then JSNumber.nan else if 0 < x then JSNumber.posInf else JSNumber.negInf
  | JSNumber.real x, JSNumber.negInf =>
    if x = 0 then JSNumber.nan else if 0 < x then JSNumber.negInf else JSNumber.posInf
  | JSNumber.posInf, JSNumber.real y =>
    if y = 0 then JSNumber.nan else if 0 < y then JSNumber.posInf else JSNumber.negInf
  | JSNumber.negInf, JSNumber.real y =>
    if y = 0 then JSNumber.nan else if 0 < y then JSNumber.negInf else JSNumber.posInf
  | JSNumber.posInf, JSNumber.posInf => JSNumber.posInf
  | JSNumber.negInf, JSNumber.negInf => JSNumber.posInf
  | JSNumber.posInf, JSNumber.negInf => JSNumber.negInf
  | JSNumber.negInf, JSNumber.posInf => JSNumber.negInf

/-- `Math.min(a, b)`: `NaN` as soon as one argument is `NaN`. -/
def mathMin (a b : JSNumber) : JSNumber :=
  match a, b with
  | JSNumber.nan, _ => JSNumber.nan
  | _, JSNumber.nan => JSNumber.nan
  | JSNumber.negInf, _ => JSNumber.negInf
  | _, JSNumber.negInf => JSNumber.negInf
  | JSNumber.posInf, y => y
  | x, JSNumber.posInf => x
  | JSNumber.real x, JSNumber.real y => JSNumber.real (min x y)

/-- `ToNumber(v)` for the operand of `/`. On `undefined`, `null`, booleans and numbers it is
fixed by the language; on strings, arrays and objects it goes through string parsing and
`toString`/`valueOf` lookups (and may throw), which is left to the parameter `coerce`. -/
def toNumber (coerce : JSValue → Except JSError JSNumber) (v : JSValue) :
    Except JSError JSNumber :=
  match v with
  | JSValue.undefined => Except.ok JSNumber.nan
  | JSValue.null => Except.ok (JSNumber.real 0)
  | JSValue.bool b => Except.ok (JSNumber.real (if b then 1 else 0))
  | JSValue.number n => Except.ok n
  | other => coerce other

/-- Truthiness of a value, as tested by `||`. -/
def truthy (v : JSValue) : Bool :=
  match v with
  | JSValue.undefined => false
  | JSValue.null => false
  | JSValue.bool b => b
  | JSValue.number JSNumber.nan => false
  | JSValue.number (JSNumber.real q) => decide (q ≠ 0)
  | JSValue.number _ => true
  | JSValue.string units => !units.isEmpty
  | JSValue.array _ => true
  | JSValue.object _ => true

/-- The method `normalizeMetric(value, maxValue)`: `Math.min(100, (value / maxValue) * 100)`. -/
def normalizeMetric (coerce : JSValue → Except JSError JSNumber) (value : JSValue)
    (maxValue : JSNumber) : Except JSError JSValue :=
  match toNumber coerce value with
  | Except.ok v =>
    Except.ok (JSValue.number
      (mathMin (JSNumber.real 100) (jsMul (jsDiv v maxValue) (JSNumber.real 100))))
  | Except.error e => Except.error e

/-- The member access `metrics.<key>` for the five metric names, none of which is defined on
a built-in prototype: a `TypeError` on `null`, the member's value on an object that has the
key (the last one when the JSON text repeats it), `undefined` otherwise. -/
def metricProperty (metrics : JSValue) (key : String) : Except JSError JSValue :=
  match metrics with
  | JSValue.undefined => Except.error JSError.typeError
  | JSValue.null => Except.error JSError.typeError
  | JSValue.object members =>
    match members.reverse.find? (fun m => m.1 == utf16 key) with
    | some m => Except.ok m.2
    | none => Except.ok JSValue.undefined
  | _ => Except.ok JSValue.undefined

/-- `String.prototype.replace(pattern, replacement)` with a string pattern: the first
occurrence only. -/
def replaceFirst (pattern replacement : List Char) : List Char → List Char
  | [] => if pattern.isEmpty then replacement else []
  | c :: r =>
    if pattern.isPrefixOf (c :: r) then replacement ++ (c :: r).drop pattern.length
    else c :: replaceFirst pattern replacement r

/-- The `colors` table of `extractMetricsData`. -/
def colors : List String :=
  [ "rgba(255, 99, 132, 0.6)", "rgba(54, 162, 235, 0.6)", "rgba(255, 205, 86, 0.6)",
    "rgba(75, 192, 192, 0.6)", "rgba(153, 102, 255, 0.6)" ]

/-- An element selected by `[data-niche-metrics]`: the attribute's text (possibly empty) and
the `data-niche-name` attribute (`none` when missing). -/
structure NicheCard where
  nicheMetrics : String
  nicheName : Option String

/-- One radar dataset pushed by `extractMetricsData`. -/
structure Dataset where
  label : String
  data : List JSValue
  backgroundColor : String
  borderColor : String
  borderWidth : Nat

/-- The text handed to `JSON.parse`: `card.dataset.nicheMetrics || '{}'`. -/
def metricsText (card : NicheCard) : String :=
  if card.nicheMetrics.toList.isEmpty then "{}" else card.nicheMetrics

/-- The label: `card.dataset.nicheName || 'Niche <index + 1>'`. -/
def datasetLabel (card : NicheCard) (index : Nat) : String :=
  match card.nicheName with
  | some name => if name.toList.isEmpty then "Niche " ++ toString (index + 1) else name
  | none => "Niche " ++ toString (index + 1)

/-- The array literal of the `data` member, evaluated left to right. -/
def metricsRow (coerce : JSValue → Except JSError JSNumber) (metrics : JSValue) :
    Except JSError (List JSValue) := do
  let viewsPerDay ← metricProperty metrics "viewsPerDay"
  let d0 ← normalizeMetric coerce viewsPerDay (JSNumber.real 100000)
  let engagement ← metricProperty metrics "engagement"
  let d1 ← normalizeMetric coerce engagement (JSNumber.real (1 / 10))
  let viralScore ← metricProperty metrics "viralScore"
  let d2 := if truthy viralScore then viralScore else JSValue.number (JSNumber.real 0)
  let channelQuality ← metricProperty metrics "channelQuality"
  let d3 ← normalizeMetric coerce channelQuality (JSNumber.real 100)
  let contentVolume ← metricProperty metrics "contentVolume"
  let d4 ← normalizeMetric coerce contentVolume (JSNumber.real 20)
  pure [d0, d1, d2, d3, d4]

/-- The body of the `forEach` callback for a card with `index < 5`. -/
def metricsDataset (coerce : JSValue → Except JSError JSNumber) (card : NicheCard)
    (index : Nat) : Except JSError Dataset := do
  let metrics ← jsonParse (metricsText card)
  let name := datasetLabel card index
  let data ← metricsRow coerce metrics
  let color := colors.getD index ""
  pure { label := name, data := data, backgroundColor := color,
         borderColor := String.mk (replaceFirst "0.6".toList "1".toList color.toList),
         borderWidth := 1 }

/-- The `nicheCards.forEach((card, index) => ...)` loop of `extractMetricsData` from position
`index` on, with the `datasets` array built so far. An exception ends the loop. -/
def extractMetricsLoop (coerce : JSValue → Except JSError JSNumber) :
    List NicheCard → Nat → List Dataset → Except JSError (List Dataset)
  | [], _, datasets => Except.ok datasets
  | card :: rest, index, datasets =>
    if index ≥ 5 then extractMetricsLoop coerce rest (index + 1) datasets
    else
      match metricsDataset coerce card index with
      | Except.ok dataset => extractMetricsLoop coerce rest (index + 1) (datasets ++ [dataset])
      | Except.error e => Except.error e

/-- The method `extractMetricsData`; the result is the `datasets` member of the returned
object, or the exception that escapes. -/
def extractMetricsData (coerce : JSValue → Except JSError JSNumber)
    (cards : List NicheCard) : Except JSError (List Dataset) :=
  extractMetricsLoop coerce cards 0 []

/-- A coercion for closed examples: every string, array or object converts to `NaN`. -/
def coerceToNaN : JSValue → Except JSError JSNumber :=
  fun _ => Except.ok JSNumber.nan

/-- The number 0 as a value. -/
def zeroValue : JSValue :=
  JSValue.number (JSNumber.real 0)

/-- The value `NaN`. -/
def nanValue : JSValue :=
  JSValue.number JSNumber.nan
/-- The `data` array computed from the empty object `{}`. -/
def emptyBundleRow : List JSValue :=
  [nanValue, nanValue, zeroValue, nanValue, nanValue]

/-- All five radar values are the number 0. -/
def allZero (row : List JSValue) : Bool :=
  row.length == 5 && row.all (fun v =>
    match v with
    | JSValue.number (JSNumber.real q) => decide (q = 0)
    | _ => false)

/-! ## Counter animation: the interval callback of `animateNumberUpdate` -/

/-- Puts a comma after every third character of a reversed digit string, as long as more
characters follow. -/
def groupReversed : List Char → List Char
  | a :: b :: c :: rest =>
    if rest.isEmpty then [a, b, c] else a :: b :: c :: ',' :: groupReversed rest
  | short => short

/-- The result of `toLocaleString()` on an integer under en-US conventions: decimal digits in
groups of three separated by commas, a leading `-` on negative numbers. -/
def toLocaleString (n : Int) : String :=
  (if n < 0 then "-" else "")
    ++ String.mk (groupReversed (toString n.natAbs).toList.reverse).reverse

/-- The nominal step duration computed by `animateNumberUpdate` for a distance of `d` steps:
`Math.min(1000, d * 50) / d`. -/
def stepDurationFor (d : Nat) : ℚ :=
  min 1000 ((d : ℚ) * 50) / (d : ℚ)

/-- The assignment `element.textContent = text` on the counter element `elementId`. -/
def setCounterText (elementId text : String) (s : Analyzer) : Analyzer :=
  { s with counters := fun id => if id = elementId then some text else s.counters id }

/-- The call `element.classList.add('text-success')` on the counter element `elementId`. -/
def addCounterClass (elementId cls : String) (s : Analyzer) : Analyzer :=
  { s with counterClasses := fun id =>
      if id = elementId then classListAdd (s.counterClasses id) [cls] else s.counterClasses id }

/-- The write `current += increment` seen from the timer table: the captured variable of the
callback behind `handle` takes its new value. -/
def storeCurrent (handle : Nat) (current : Int) (tt : TimerTable) : TimerTable :=
  { tt with active := tt.active.map (fun t =>
      if t.handle == handle then
        match t.action with
        | TimerAction.counterStep elementId increment newValue _ =>
          { t with action := TimerAction.counterStep elementId increment newValue current }
        | _ => t
      else t) }

/-- One firing of the interval callback installed by `animateNumberUpdate` under `handle`.
Nothing happens when no counting timer is active under that handle. -/
def counterTick (handle : Nat) (s : Analyzer) : Analyzer :=
  match s.timers.active.find? (fun t => t.handle == handle) with
  | some t =>
    match t.action with
    | TimerAction.counterStep elementId increment newValue current =>
      let current1 := current + increment
      let s1 := setCounterText elementId (toLocaleString current1)
        { s with timers := storeCurrent handle current1 s.timers }
      if current1 = newValue then
        let s2 := { s1 with timers := s1.timers.clear handle }
        let s3 := addCounterClass elementId "text-success" s2
        s3.setTimeout 1000 (TimerAction.clearSuccess elementId)
      else s1
    | _ => s
  | none => s

/-- Whether a timer with this handle is active. -/
def timerActive (handle : Nat) (s : Analyzer) : Bool :=
  s.timers.active.any (fun t => t.handle == handle)

/-- The value held by the captured variable `current` of the counting timer `handle`. -/
def counterCurrent (handle : Nat) (s : Analyzer) : Option Int :=
  match s.timers.active.find? (fun t => t.handle == handle) with
  | some t =>
    match t.action with
    | TimerAction.counterStep _ _ _ current => some current
    | _ => none
  | none => none

/-! ## Session id and poller activation (`getSessionIdFromURL`, `handleAnalysisStatus`) -/

/-- The pattern `\/results\/(\d+)` tried at the start of `cs`: the text `/results/` followed
by the longest non-empty run of decimal digits, which is the capture. -/
def matchResultsHere (cs : List Char) : Option (List Char) :=
  if "/results/".toList.isPrefixOf cs then
    let digits := (cs.drop 9).takeWhile isDecimalDigit
    if digits.isEmpty then none else some digits
  else none

/-- The search of `path.match(/\/results\/(\d+)/)`: the pattern is tried at every position
from left to right and the first success wins. -/
def searchResults : List Char → Option (List Char)
  | [] => none
  | c :: r =>
    match matchResultsHere (c :: r) with
    | some digits => some digits
    | none => searchResults r

/-- The method `getSessionIdFromURL` for `window.location.pathname = path`; `none` is
`null`. -/
def getSessionIdFromURL (path : String) : Option String :=
  match searchResults path.toList with
  | some digits => some (String.mk digits)
  | none => none

/-- `String.prototype.includes` with a string argument. -/
def includes (needle : List Char) : List Char → Bool
  | [] => needle.isEmpty
  | c :: r => needle.isPrefixOf (c :: r) || includes needle r

/-- The method `handleAnalysisStatus`, for the page path, the `textContent` of the `.badge`
elements and the analyzer state. A session id, when found, is a non-empty string and so
truthy. -/
def handleAnalysisStatus (path : String) (badges : List String) (s : Analyzer) : Analyzer :=
  match getSessionIdFromURL path with
  | none => s
  | some sessionId =>
    let hasRunningStatus := badges.any (fun b => includes "Running".toList b.toList)
    if hasRunningStatus || s.progressBar.isSome then startStatusPolling sessionId s
    else s

/-- A path of the form `/results/<numeric-id>`: the text `/results/` followed by one or more
decimal digits and nothing else. -/
def isResultsPath (path : String) : Bool :=
  "/results/".toList.isPrefixOf path.toList
    && !(path.toList.drop 9).isEmpty && (path.toList.drop 9).all isDecimalDigit

/-- Whether a number lies in the closed interval from 0 to 100. -/
def inScale (v : JSValue) : Bool :=
  match v with
  | JSValue.number (JSNumber.real q) => decide (0 ≤ q ∧ q ≤ 100)
  | _ => false

/-- A results page in mid-analysis whose counter shows `1,234`. -/
def sampleCounting : Analyzer :=
  { pollInterval := some 1,
    timers := ⟨[⟨1, true, 3000, TimerAction.pollStatus "7"⟩], 1⟩,
    fetches := ["/api/analysis_status/7"],
    progressBar := some ⟨"10%", "10"⟩,
    progressText := some "10%",
    statusText := some ⟨"Starting", "1"⟩,
    progressChart := some [JSNumber.real 10, JSNumber.real 90],
    counters := fun id => if id = "total_videos_analyzed" then some "1,234" else none,
    counterClasses := fun _ => [],
    alerts := [],
    console := [] }

/-- A snapshot of a running analysis that reports a negative progress. -/
def sampleNegative : StatusSnapshot :=
  { progress := JSNumber.real (-5), current_status := some "Scanning channels",
    status := "running", total_videos_analyzed := none, total_channels_found := none,
    total_niches_identified := none }

/-- A snapshot of a running analysis. -/
def sampleRunning : StatusSnapshot :=
  { progress := JSNumber.real 40, current_status := some "Scanning channels",
    status := "running",
    total_videos_analyzed := some 8, total_channels_found := none,
    total_niches_identified := none }

/-! ## Lemmas on form validation -/

theorem sessionNameStep_errors (doc : FormDocument) (run : ValidationRun) :
    (sessionNameStep doc run).errors
      = run.errors ++ (if sessionViolated doc then [sessionNameMessage] else []) := by
  unfold sessionNameStep sessionViolated
  cases doc "session_name" with
  | none => simp
  | some value => by_cases h : sessionNameViolation value <;> simp [h]

theorem numericFieldStep_errors (doc : FormDocument) (run : ValidationRun)
    (field : NumericField) :
    (numericFieldStep doc run field).errors
      = run.errors ++ (if fieldViolated doc field then [numericMessage field] else []) := by
  unfold numericFieldStep fieldViolated
  cases doc field.id with
  | none => simp
  | some text => by_cases h : numericViolation field (parseInt text) <;> simp [h]

theorem foldl_numericFieldStep_errors (doc : FormDocument) (fields : List NumericField) :
    ∀ run : ValidationRun,
      (fields.foldl (numericFieldStep doc) run).errors
        = run.errors ++ (fields.filter (fieldViolated doc)).map numericMessage := by
  induction fields with
  | nil => intro run; simp
  | cons f fs ih =>
    intro run
    rw [List.foldl_cons, ih, numericFieldStep_errors]
    by_cases h : fieldViolated doc f <;> simp [h, List.filter_cons]

theorem collectErrors_errors (doc : FormDocument) :
    (collectErrors doc).errors = violationMessages doc := by
  unfold collectErrors
  rw [foldl_numericFieldStep_errors, sessionNameStep_errors]
  simp [violationMessages]

/-- The array `errors` at the end of `validateAnalysisForm`. -/
theorem validateAnalysisForm_errors (doc : FormDocument) :
    (validateAnalysisForm doc).errors = violationMessages doc := by
  simp only [validateAnalysisForm]
  split <;> exact collectErrors_errors doc

theorem validateAnalysisForm_result (doc : FormDocument) :
    (validateAnalysisForm doc).result = decide (violationMessages doc = []) := by
  simp only [validateAnalysisForm, collectErrors_errors]
  cases violationMessages doc <;> simp

theorem validateAnalysisForm_shown (doc : FormDocument) :
    (validateAnalysisForm doc).shown
      = if violationMessages doc = [] then none else some (violationMessages doc) := by
  simp only [validateAnalysisForm, collectErrors_errors]
  cases violationMessages doc <;> simp

theorem numericMessage_mem_violationMessages (doc : FormDocument) (field : NumericField)
    (hf : field ∈ numericFields) (hv : fieldViolated doc field = true) :
    numericMessage field ∈ violationMessages doc := by
  unfold violationMessages
  apply List.mem_append_right
  exact List.mem_map_of_mem _ (List.mem_filter.mpr ⟨hf, hv⟩)

theorem numericMessage_starts_with_name (field : NumericField) :
    field.name.toList <+: (numericMessage field).toList := by
  unfold numericMessage
  simp [String.toList, String.data_append, List.append_assoc]

theorem numericMessage_ne_sessionNameMessage :
    ∀ f ∈ numericFields, numericMessage f ≠ sessionNameMessage := by
  decide

theorem numericMessage_injOn :
    ∀ f ∈ numericFields, ∀ g ∈ numericFields, numericMessage f = numericMessage g → f.id = g.id := by
  decide

theorem fieldViolated_congr (doc : FormDocument) :
    ∀ f ∈ numericFields, ∀ g ∈ numericFields, f.id = g.id →
      fieldViolated doc f = fieldViolated doc g := by
  intro f hf g hg h
  simp only [numericFields, List.mem_cons, List.mem_singleton, List.not_mem_nil, or_false] at hf hg
  rcases hf with rfl | rfl | rfl <;> rcases hg with rfl | rfl | rfl <;>
    first
      | rfl
      | exact absurd h (by decide)

theorem numericMessage_mem_iff (doc : FormDocument) (field : NumericField)
    (hf : field ∈ numericFields) :
    numericMessage field ∈ violationMessages doc ↔ fieldViolated doc field = true := by
  constructor
  · intro h
    unfold violationMessages at h
    rcases List.mem_append.mp h with h | h
    · split at h
      · have := List.mem_singleton.mp h
        exact absurd this (numericMessage_ne_sessionNameMessage field hf)
      · simp at h
    · obtain ⟨g, hg, hgm⟩ := List.mem_map.mp h
      obtain ⟨hg1, hg2⟩ := List.mem_filter.mp hg
      rw [fieldViolated_congr doc field hf g hg1
        (numericMessage_injOn field hf g hg1 hgm.symm)]
      exact hg2
  · exact numericMessage_mem_violationMessages doc field hf

theorem sessionNameMessage_mem_iff (doc : FormDocument) :
    sessionNameMessage ∈ violationMessages doc ↔ sessionViolated doc = true := by
  unfold violationMessages
  constructor
  · intro h
    rcases List.mem_append.mp h with h | h
    · by_cases hs : sessionViolated doc = true
      · exact hs
      · simp [hs] at h
    · obtain ⟨g, hg, hgm⟩ := List.mem_map.mp h
      exact absurd hgm (numericMessage_ne_sessionNameMessage g (List.mem_filter.mp hg).1)
  · intro h
    simp [h]

theorem sessionNameViolation_iff (value : String) :
    sessionNameViolation value = true ↔ jsLength (trim value.toList) < 3 := by
  unfold sessionNameViolation
  constructor
  · intro h
    rcases Bool.or_eq_true_iff.mp h with h | h
    · have : value.toList = [] := List.isEmpty_iff.mp h
      rw [this]
      decide
    · exact of_decide_eq_true h
  · intro h
    exact Bool.or_eq_true_iff.mpr (Or.inr (decide_eq_true h))

/-! ## Lemmas on `parseInt` -/

theorem splitRadix_decimal (S : List Char) (h1 : ∀ r, S ≠ '0' :: 'x' :: r)
    (h2 : ∀ r, S ≠ '0' :: 'X' :: r) : splitRadix S = (10, S) := by
  unfold splitRadix
  split
  · exact absurd rfl (h1 _)
  · exact absurd rfl (h2 _)
  · rfl

theorem isRadixDigit_ten (c : Char) (h : isRadixDigit 10 c = true) :
    48 ≤ c.toNat ∧ c.toNat ≤ 57 := by
  unfold isRadixDigit digitValue at h
  by_cases h1 : 48 ≤ c.toNat ∧ c.toNat ≤ 57
  · exact h1
  · simp only [h1, if_false] at h
    by_cases h2 : 97 ≤ c.toNat ∧ c.toNat ≤ 122
    · simp only [h2, and_self, if_true] at h
      have := of_decide_eq_true h
      omega
    · simp only [h2, if_false] at h
      by_cases h3 : 65 ≤ c.toNat ∧ c.toNat ≤ 90
      · simp only [h3, and_self, if_true] at h
        have := of_decide_eq_true h
        omega
      · simp [h3] at h

theorem not_whiteSpace_of_digit (c : Char) (h : 48 ≤ c.toNat ∧ c.toNat ≤ 57) :
    isJsWhiteSpace c = false := by
  unfold isJsWhiteSpace
  simp only [Bool.or_eq_false_iff, Bool.and_eq_false_iff, beq_eq_false_iff_ne, ne_eq,
    decide_eq_false_iff_not]
  refine ⟨⟨⟨⟨⟨⟨⟨⟨⟨⟨⟨⟨⟨⟨?_, ?_⟩, ?_⟩, ?_⟩, ?_⟩, ?_⟩, ?_⟩, ?_⟩, ?_⟩, ?_⟩, ?_⟩, ?_⟩, ?_⟩, ?_⟩, ?_⟩ <;>
    omega

/-- A text that starts with a decimal numeral and goes on with a character that is neither a
digit nor `x`/`X` is read by `parseInt` as that numeral. -/
theorem parseInt_leading_numeral (ds rest : List Char) (hne : ds ≠ [])
    (hds : ∀ c ∈ ds, isRadixDigit 10 c = true)
    (hrest : ∀ c, rest.head? = some c → isRadixDigit 10 c = false ∧ c ≠ 'x' ∧ c ≠ 'X') :
    parseInt (String.mk (ds ++ rest)) = some (digitsValue 10 ds : Int) := by
  obtain ⟨d, ds', rfl⟩ := List.exists_cons_of_ne_nil hne
  have hd := isRadixDigit_ten d (hds d (List.mem_cons_self _ _))
  have hws := not_whiteSpace_of_digit d hd
  have hminus : d ≠ '-' := by
    intro h; rw [h] at hd; revert hd; decide
  have hplus : d ≠ '+' := by
    intro h; rw [h] at hd; revert hd; decide
  have htrim : trimStart (d :: ds' ++ rest) = d :: ds' ++ rest := by
    simp [trimStart, List.dropWhile, hws]
  have hsign : parseSign (d :: ds' ++ rest) = 1 := by
    unfold parseSign
    split
    · rename_i h; simp at h; exact absurd h.1 hminus
    · rfl
  have hdrop : dropSign (d :: ds' ++ rest) = d :: ds' ++ rest := by
    unfold dropSign
    split
    · rename_i h; simp at h; exact absurd h.1 hminus
    · rename_i h; simp at h; exact absurd h.1 hplus
    · rfl
  have hsecond : ∀ c r, ds' ++ rest = c :: r → c ≠ 'x' ∧ c ≠ 'X' := by
    intro c r h
    cases ds' with
    | nil =>
      simp at h
      have := hrest c (by simp [h])
      exact this.2
    | cons e es =>
      simp at h
      have he := isRadixDigit_ten e (hds e (by simp))
      rw [h.1] at he
      constructor
      · intro hc; rw [hc] at he; revert he; decide
      · intro hc; rw [hc] at he; revert he; decide
  have hradix : splitRadix (d :: ds' ++ rest) = (10, d :: ds' ++ rest) := by
    apply splitRadix_decimal
    · intro r h
      simp at h
      exact (hsecond 'x' r h.2).1 rfl
    · intro r h
      simp at h
      exact (hsecond 'X' r h.2).2 rfl
  have htake : (d :: ds' ++ rest).takeWhile (isRadixDigit 10) = d :: ds' := by
    have : (d :: ds' ++ rest) = (d :: ds') ++ rest := rfl
    rw [this, List.takeWhile_append_of_pos hds]
    cases rest with
    | nil => simp
    | cons c r =>
      have := (hrest c rfl).1
      simp [List.takeWhile, this]
  simp only [parseInt, String.toList, htrim, hsign, hdrop, hradix, htake]
  simp

theorem fieldViolated_iff (doc : FormDocument) (field : NumericField) (text : String)
    (hf : field ∈ numericFields) (hd : doc field.id = some text) :
    fieldViolated doc field = true ↔
      ¬ ∃ v : Int, parseInt text = some v ∧ field.min ≤ v ∧ ∀ k, field.max = some k → v ≤ k := by
  simp only [fieldViolated, hd]
  simp only [numericFields, List.mem_cons, List.mem_singleton, List.not_mem_nil, or_false] at hf
  cases parseInt text with
  | none => simp [numericViolation]
  | some v =>
    rcases hf with rfl | rfl | rfl <;> simp [numericViolation] <;> omega

/-! ## Claims on form validation -/

/-- C1: a numeric field that is present and whose parsed integer value is strictly below the
field's minimum, or strictly above its maximum when it has one, makes `validateAnalysisForm`
return false with an error message that begins with the field's display name. -/
theorem numeric_out_of_range_rejected (doc : FormDocument) (field : NumericField)
    (text : String) (v : Int) (hf : field ∈ numericFields) (hd : doc field.id = some text)
    (hp : parseInt text = some v) (hv : v < field.min ∨ ∃ k, field.max = some k ∧ k < v) :
    (validateAnalysisForm doc).result = false ∧
      ∃ msg ∈ (validateAnalysisForm doc).errors, field.name.toList <+: msg.toList := by
  have hviol : fieldViolated doc field = true := by
    rw [fieldViolated_iff doc field text hf hd]
    rintro ⟨w, hw, hmin, hmax⟩
    rw [hp] at hw
    cases hw
    rcases hv with hv | ⟨k, hk, hv⟩
    · omega
    · have := hmax k hk
      omega
  have hmem := numericMessage_mem_violationMessages doc field hf hviol
  refine ⟨?_, numericMessage field, ?_, numericMessage_starts_with_name field⟩
  · rw [validateAnalysisForm_result]
    apply decide_eq_false
    intro h0
    rw [h0] at hmem
    cases hmem
  · rw [validateAnalysisForm_errors]
    exact hmem

/-- Witness of C1: a duration of 301 on an otherwise empty form. -/
theorem numeric_out_of_range_rejected_witness :
    (validateAnalysisForm (singleField "max_duration_seconds" "301")).result = false ∧
      ∃ msg ∈ (validateAnalysisForm (singleField "max_duration_seconds" "301")).errors,
        "Max Duration".toList <+: msg.toList :=
  numeric_out_of_range_rejected (singleField "max_duration_seconds" "301")
    { id := "max_duration_seconds", min := 1, max := some 300, name := "Max Duration" }
    "301" 301 (by decide) (by decide) (by decide) (Or.inr ⟨300, rfl, by decide⟩)

/-- C2: when the session-name control exists, the session-name error is produced exactly when
the trimmed value has fewer than 3 code units; with a trimmed length of at least 3 and no
numeric rule violated the form passes with no error. -/
theorem session_name_rule (doc : FormDocument) (value : String)
    (hd : doc "session_name" = some value) :
    (sessionNameMessage ∈ (validateAnalysisForm doc).errors
        ↔ jsLength (trim value.toList) < 3) ∧
      (3 ≤ jsLength (trim value.toList) →
        (∀ f ∈ numericFields, fieldViolated doc f = false) →
          (validateAnalysisForm doc).result = true ∧ (validateAnalysisForm doc).errors = []) := by
  have hsv : sessionViolated doc = sessionNameViolation value := by
    unfold sessionViolated; rw [hd]
  constructor
  · rw [validateAnalysisForm_errors, sessionNameMessage_mem_iff, hsv, sessionNameViolation_iff]
  · intro hlen hnum
    have hs : sessionViolated doc = false := by
      rw [hsv]
      cases h : sessionNameViolation value with
      | false => rfl
      | true => have := (sessionNameViolation_iff value).mp h; omega
    have hnil : violationMessages doc = [] := by
      unfold violationMessages
      rw [hs]
      simp only [Bool.false_eq_true, if_false, List.nil_append, List.map_eq_nil_iff,
        List.filter_eq_nil_iff]
      intro f hf
      rw [hnum f hf]
      simp
    rw [validateAnalysisForm_result, validateAnalysisForm_errors, hnil]
    simp

/-- Witness of C2: the name `abc` on a form with no other control. -/
theorem session_name_rule_witness :
    (sessionNameMessage ∈ (validateAnalysisForm (singleField "session_name" "abc")).errors
        ↔ jsLength (trim "abc".toList) < 3) ∧
      (3 ≤ jsLength (trim "abc".toList) →
        (∀ f ∈ numericFields, fieldViolated (singleField "session_name" "abc") f = false) →
          (validateAnalysisForm (singleField "session_name" "abc")).result = true ∧
            (validateAnalysisForm (singleField "session_name" "abc")).errors = []) :=
  session_name_rule (singleField "session_name" "abc") "abc" (by decide)

/-- C3 fails as stated: `50abc` and `300.9` are not integer numerals, yet a form whose only
control is `max_duration_seconds` with either text passes validation with no error. -/
theorem non_numeral_text_accepted :
    isIntegerNumeral "50abc" = false ∧ isIntegerNumeral "300.9" = false ∧
      parseInt "50abc" = some 50 ∧ parseInt "300.9" = some 300 ∧
      (validateAnalysisForm (singleField "max_duration_seconds" "50abc")).result = true ∧
      (validateAnalysisForm (singleField "max_duration_seconds" "50abc")).errors = [] ∧
      (validateAnalysisForm (singleField "max_duration_seconds" "300.9")).result = true ∧
      (validateAnalysisForm (singleField "max_duration_seconds" "300.9")).errors = [] := by
  decide

/-- C3 as amended: a present numeric field gets its error exactly when `parseInt` of its text
is `NaN` or lies outside the field's inclusive bounds; `parseInt` reads the leading numeral
only, so a text made of a decimal numeral followed by other characters (not starting with a
digit or `x`/`X`) is judged on the numeral alone. -/
theorem numeric_field_judged_by_parseInt (doc : FormDocument) (field : NumericField)
    (text : String) (hf : field ∈ numericFields) (hd : doc field.id = some text) :
    (numericMessage field ∈ (validateAnalysisForm doc).errors ↔
        ¬ ∃ v : Int, parseInt text = some v ∧ field.min ≤ v ∧
            ∀ k, field.max = some k → v ≤ k) ∧
      (∀ ds rest : List Char, text = String.mk (ds ++ rest) → ds ≠ [] →
        (∀ c ∈ ds, isRadixDigit 10 c = true) →
        (∀ c, rest.head? = some c → isRadixDigit 10 c = false ∧ c ≠ 'x' ∧ c ≠ 'X') →
        (numericMessage field ∈ (validateAnalysisForm doc).errors ↔
          ¬ (field.min ≤ (digitsValue 10 ds : Int) ∧
              ∀ k, field.max = some k → (digitsValue 10 ds : Int) ≤ k))) := by
  have h1 : numericMessage field ∈ (validateAnalysisForm doc).errors ↔
      ¬ ∃ v : Int, parseInt text = some v ∧ field.min ≤ v ∧
          ∀ k, field.max = some k → v ≤ k := by
    rw [validateAnalysisForm_errors, numericMessage_mem_iff doc field hf,
      fieldViolated_iff doc field text hf hd]
  refine ⟨h1, ?_⟩
  intro ds rest htext hne hds hrest
  rw [h1, htext, parseInt_leading_numeral ds rest hne hds hrest]
  constructor
  · intro h hb
    exact h ⟨_, rfl, hb⟩
  · rintro h ⟨v, hv, hb⟩
    cases hv
    exact h hb

/-- Witness of C3 as amended: the text `50abc` in `max_duration_seconds`. -/
theorem numeric_field_judged_by_parseInt_witness :
    numericMessage
        { id := "max_duration_seconds", min := 1, max := some 300, name := "Max Duration" }
      ∉ (validateAnalysisForm (singleField "max_duration_seconds" "50abc")).errors := by
  have h := (numeric_field_judged_by_parseInt (singleField "max_duration_seconds" "50abc")
    { id := "max_duration_seconds", min := 1, max := some 300, name := "Max Duration" }
    "50abc" (by decide) (by decide)).2 ['5', '0'] ['a', 'b', 'c'] (by decide) (by decide)
    (by decide) (by decide)
  rw [h]
  simp only [not_not]
  refine ⟨by decide, ?_⟩
  intro k hk
  cases hk
  decide

/-- C4: `validateAnalysisForm` gathers one message per violated rule, session name first and
then the numeric fields in table order, hands that list to `showFormErrors` when it is not
empty, and returns true exactly when the list is empty. -/
theorem all_violations_collected (doc : FormDocument) :
    (validateAnalysisForm doc).errors
        = (if sessionViolated doc then [sessionNameMessage] else [])
          ++ (numericFields.filter (fieldViolated doc)).map numericMessage ∧
      (validateAnalysisForm doc).errors.length
        = (if sessionViolated doc then 1 else 0)
          + (numericFields.filter (fieldViolated doc)).length ∧
      ((validateAnalysisForm doc).result = true ↔ (validateAnalysisForm doc).errors = []) ∧
      (validateAnalysisForm doc).shown
        = (if (validateAnalysisForm doc).errors = [] then none
           else some (validateAnalysisForm doc).errors) := by
  refine ⟨?_, ?_, ?_, ?_⟩
  · rw [validateAnalysisForm_errors]; rfl
  · rw [validateAnalysisForm_errors]
    unfold violationMessages
    by_cases h : sessionViolated doc = true <;> simp [h]
    omega
  · rw [validateAnalysisForm_result, validateAnalysisForm_errors]
    simp
  · rw [validateAnalysisForm_shown, validateAnalysisForm_errors]

/-! ## Lemmas on the keyword picker -/

theorem hasClass_deselectButton (b : KeywordButton) :
    hasClass "active" (deselectButton b) = false ∧
      hasClass "btn-primary" (deselectButton b) = false := by
  simp only [hasClass, deselectButton, classListAdd, classListRemove, List.foldl_cons,
    List.foldl_nil]
  constructor <;> split <;> simp [List.mem_filter]

theorem hasClass_selectButton (b : KeywordButton) :
    hasClass "active" (selectButton b) = true ∧
      hasClass "btn-primary" (selectButton b) = true := by
  simp only [hasClass, selectButton, classListAdd, classListRemove, List.foldl_cons,
    List.foldl_nil]
  constructor <;> split <;> split <;> simp_all

theorem countP_modify_map (p : KeywordButton → Bool) (f g : KeywordButton → KeywordButton)
    (hg : ∀ b, p (g b) = false) (hf : ∀ b, p (f b) = true) :
    ∀ (l : List KeywordButton) (i : Nat), i < l.length →
      (List.modify f i (l.map g)).countP p = 1 := by
  intro l
  induction l with
  | nil => intro i hi; simp at hi
  | cons a l ih =>
    intro i hi
    cases i with
    | zero =>
      have h0 : (l.map g).countP p = 0 := by
        rw [List.countP_eq_zero]
        intro x hx
        obtain ⟨y, _, rfl⟩ := List.mem_map.mp hx
        simp [hg y]
      simp [List.modify, List.countP_cons, hf, h0]
    | succ n =>
      have := ih n (by simpa using hi)
      simp [List.modify, List.countP_cons, hg] at this ⊢
      exact this

theorem stripLineBreaks_of_clean (k : String)
    (h : ∀ c ∈ k.toList, isLineBreak c = false) : stripLineBreaks k = k := by
  unfold stripLineBreaks
  have : k.toList.filter (fun c => !isLineBreak c) = k.toList := by
    rw [List.filter_eq_self]
    intro c hc
    simp [h c hc]
  rw [this]
  rfl

/-- C5 fails as stated: a `data-keyword` that holds a line break is not what the search input
ends up with, since the text field strips line breaks from the value it is given. -/
theorem keyword_line_break_stripped :
    (keywordClick lineBreakKeywordPage 0).searchInput = some "homeworkout" ∧
      (keywordClick lineBreakKeywordPage 0).searchInput ≠ some "home\nworkout" ∧
      (keywordClick lineBreakKeywordPage 0).buttons.countP (hasClass "active") = 1 := by
  decide

/-- C5 as amended: after the click handler of keyword button `i` ran, button `i` carries
`active` and `btn-primary`, every other button carries neither, so exactly one button is
active, and the search input holds the button's `data-keyword` with its line breaks stripped,
which is the `data-keyword` itself when it holds no line break. -/
theorem keyword_selection_exclusive (page : KeywordPage) (i : Nat) (v : String)
    (B : KeywordButton) (hin : page.searchInput = some v) (hB : page.buttons[i]? = some B) :
    (keywordClick page i).buttons.length = page.buttons.length ∧
      (∀ j b, (keywordClick page i).buttons[j]? = some b →
        ((hasClass "active" b = true ↔ j = i) ∧ (hasClass "btn-primary" b = true ↔ j = i))) ∧
      (keywordClick page i).buttons.countP (hasClass "active") = 1 ∧
      (keywordClick page i).buttons.countP (hasClass "btn-primary") = 1 ∧
      (keywordClick page i).searchInput = some (stripLineBreaks (keywordText B.keyword)) ∧
      (∀ k, B.keyword = some k → (∀ c ∈ k.toList, isLineBreak c = false) →
        (keywordClick page i).searchInput = some k) := by
  have hi : i < page.buttons.length := by
    by_contra h
    rw [List.getElem?_eq_none (by omega)] at hB
    cases hB
  have hclick : keywordClick page i =
      { buttons := List.modify selectButton i (page.buttons.map deselectButton),
        searchInput := some (stripLineBreaks (keywordText B.keyword)),
        timers := (page.timers.setTimer false 150 (TimerAction.restoreScale i)).2 } := by
    simp only [keywordClick, hin, hB]
  rw [hclick]
  refine ⟨by simp, ?_, ?_, ?_, rfl, ?_⟩
  · intro j b hb
    simp only [List.getElem?_modify, List.getElem?_map] at hb
    cases hj : page.buttons[j]? with
    | none => rw [hj] at hb; simp at hb
    | some c =>
      rw [hj] at hb
      simp only [Option.map_some', Option.some.injEq] at hb
      by_cases hji : i = j
      · subst hji
        simp only [if_true, Option.map_eq_map, Option.map_some', Option.some.injEq] at hb
        subst hb
        simp [(hasClass_selectButton (deselectButton c)).1,
          (hasClass_selectButton (deselectButton c)).2]
      · simp only [hji, if_false, Option.map_eq_map, Option.map_some', Option.some.injEq] at hb
        subst hb
        have hne : ¬ j = i := fun h => hji h.symm
        simp [(hasClass_deselectButton c).1, (hasClass_deselectButton c).2, hne]
  · exact countP_modify_map _ _ _ (fun b => (hasClass_deselectButton b).1)
      (fun b => (hasClass_selectButton b).1) _ _ hi
  · exact countP_modify_map _ _ _ (fun b => (hasClass_deselectButton b).2)
      (fun b => (hasClass_selectButton b).2) _ _ hi
  · intro k hk hclean
    simp only [hk, keywordText, stripLineBreaks_of_clean k hclean]

/-- Witness of C5 as amended: clicking the second of two buttons while the first is
selected. -/
theorem keyword_selection_exclusive_witness :
    (keywordClick sampleKeywordPage 1).buttons.countP (hasClass "active") = 1 ∧
      (keywordClick sampleKeywordPage 1).searchInput = some "fitness" :=
  have h := keyword_selection_exclusive sampleKeywordPage 1 "cooking"
    ⟨["keyword-btn", "btn-outline-secondary"], some "fitness", ""⟩ rfl rfl
  ⟨h.2.2.1, h.2.2.2.2.2 "fitness" rfl (by decide)⟩

/-! ## Lemmas on the status poller -/

theorem filter_append_singleton_pos {α : Type} (p : α → Bool) (A : List α) (x : α)
    (hA : ∀ a ∈ A, p a = false) (hx : p x = true) : (A ++ [x]).filter p = [x] := by
  rw [List.filter_append, List.filter_eq_nil_iff.mpr (fun a ha => by simp [hA a ha])]
  simp [hx]

/-- The timers left by the `if (this.pollInterval) clearInterval(...)` guard shared by
`startStatusPolling` and `handleAnalysisComplete`. -/
theorem no_poll_after_clear (s : Analyzer) (hs : PollerConsistent s) (h : Nat)
    (hp : s.pollInterval = some h) :
    ∀ t ∈ (s.timers.clear h).active, isPollTimer t = false := by
  intro t ht
  simp only [TimerTable.clear, List.mem_filter, bne_iff_ne, ne_eq] at ht
  cases hpt : isPollTimer t with
  | false => rfl
  | true =>
    have := hs.2.2 t ht.1 hpt
    rw [hp] at this
    exact absurd (Option.some.inj this).symm ht.2

theorem no_poll_of_null (s : Analyzer) (hs : PollerConsistent s) (hp : s.pollInterval = none) :
    ∀ t ∈ s.timers.active, isPollTimer t = false := by
  intro t ht
  cases hpt : isPollTimer t with
  | false => rfl
  | true =>
    have := hs.2.2 t ht hpt
    rw [hp] at this
    cases this

theorem wellFormed_clear (tt : TimerTable) (h : Nat) (hw : tt.WellFormed) :
    (tt.clear h).WellFormed := by
  intro t ht
  simp only [TimerTable.clear, List.mem_filter] at ht
  exact hw t ht.1

/-- What one call of `startStatusPolling` leaves behind, from a consistent state. -/
theorem startStatusPolling_spec (sessionId : String) (s : Analyzer) (hs : PollerConsistent s) :
    pollTimers (startStatusPolling sessionId s)
        = [⟨s.timers.lastHandle + 1, true, 3000, TimerAction.pollStatus sessionId⟩] ∧
      (startStatusPolling sessionId s).pollInterval = some (s.timers.lastHandle + 1) ∧
      (startStatusPolling sessionId s).timers.lastHandle = s.timers.lastHandle + 1 ∧
      (startStatusPolling sessionId s).timers.active.filter
          (fun t => t.handle == s.timers.lastHandle + 1)
        = [⟨s.timers.lastHandle + 1, true, 3000, TimerAction.pollStatus sessionId⟩] ∧
      PollerConsistent (startStatusPolling sessionId s) := by
  obtain ⟨hw, hz, hheld⟩ := hs
  -- the table after the guard
  have key : ∃ tt : TimerTable, tt.lastHandle = s.timers.lastHandle ∧ tt.WellFormed ∧
      (∀ t ∈ tt.active, isPollTimer t = false) ∧
      startStatusPolling sessionId s =
        { s with
          pollInterval := some (tt.lastHandle + 1),
          timers := (tt.setTimer true 3000 (TimerAction.pollStatus sessionId)).2,
          fetches := s.fetches ++ ["/api/analysis_status/" ++ sessionId] } := by
    cases hp : s.pollInterval with
    | none =>
      refine ⟨s.timers, rfl, hw, no_poll_of_null s ⟨hw, hz, hheld⟩ hp, ?_⟩
      simp [startStatusPolling, hp, updateAnalysisStatusStart, TimerTable.setTimer]
    | some h =>
      have hne : h ≠ 0 := by
        intro h0; rw [h0] at hp; exact hz hp
      refine ⟨s.timers.clear h, rfl, wellFormed_clear _ _ hw,
        no_poll_after_clear s ⟨hw, hz, hheld⟩ h hp, ?_⟩
      simp [startStatusPolling, hp, hne, updateAnalysisStatusStart, TimerTable.setTimer,
        TimerTable.clear]
  obtain ⟨tt, hl, hwt, hnp, heq⟩ := key
  rw [heq]
  simp only [pollTimers, TimerTable.setTimer, hl]
  refine ⟨?_, trivial, trivial, ?_, ?_, ?_, ?_⟩
  · exact filter_append_singleton_pos _ _ _ hnp rfl
  · apply filter_append_singleton_pos
    · intro a ha
      have := (hwt a ha).2
      simp only [beq_eq_false_iff_ne, ne_eq]
      omega
    · simp
  · intro t ht
    simp only [List.mem_append, List.mem_singleton] at ht
    rcases ht with ht | rfl
    · have := hwt t ht
      simp only
      omega
    · simp
  · simp
  · intro t ht hpt
    simp only [List.mem_append, List.mem_singleton] at ht
    rcases ht with ht | rfl
    · rw [hnp t ht] at hpt
      cases hpt
    · rfl

/-- C6: from a consistent state (every active polling timer is the one held in
`pollInterval`), `startStatusPolling` called once, or twice in succession, leaves exactly one
active polling timer, `pollInterval` holds its handle, and no other timer has that handle. -/
theorem startStatusPolling_single_timer (sessionId sessionId' : String) (s : Analyzer)
    (hs : PollerConsistent s) :
    (∃ t, pollTimers (startStatusPolling sessionId s) = [t] ∧
        (startStatusPolling sessionId s).pollInterval = some t.handle ∧
        (startStatusPolling sessionId s).timers.active.filter
          (fun u => u.handle == t.handle) = [t] ∧
        t.repeating = true ∧ t.delay = 3000) ∧
      (∃ t, pollTimers (startStatusPolling sessionId' (startStatusPolling sessionId s)) = [t] ∧
        (startStatusPolling sessionId' (startStatusPolling sessionId s)).pollInterval
          = some t.handle ∧
        (startStatusPolling sessionId' (startStatusPolling sessionId s)).timers.active.filter
          (fun u => u.handle == t.handle) = [t] ∧
        t.repeating = true ∧ t.delay = 3000) := by
  obtain ⟨h1, h2, h3, h4, h5⟩ := startStatusPolling_spec sessionId s hs
  obtain ⟨k1, k2, _, k4, _⟩ := startStatusPolling_spec sessionId' _ h5
  exact ⟨⟨_, h1, h2, h4, rfl, rfl⟩, ⟨_, k1, k2, k4, rfl, rfl⟩⟩

theorem samplePolling_consistent : PollerConsistent samplePolling := by
  refine ⟨?_, by decide, ?_⟩
  · intro t ht
    simp only [samplePolling, List.mem_singleton] at ht
    subst ht
    decide
  · intro t ht _
    simp only [samplePolling, List.mem_singleton] at ht
    subst ht
    rfl

/-- Witness of C6: restarting the poller on a page that is already polling. -/
theorem startStatusPolling_single_timer_witness :
    (pollTimers (startStatusPolling "7" samplePolling)).length = 1 ∧
      (pollTimers (startStatusPolling "7" (startStatusPolling "7" samplePolling))).length = 1 :=
  have h := startStatusPolling_single_timer "7" "7" samplePolling samplePolling_consistent
  ⟨by obtain ⟨t, ht, _⟩ := h.1; rw [ht]; rfl, by obtain ⟨t, ht, _⟩ := h.2; rw [ht]; rfl⟩

/-! ### Handling a snapshot -/

theorem Extends.refl (s : Analyzer) : Extends s s :=
  ⟨rfl, Nat.le_refl _, [], by simp, by simp⟩

theorem Extends.trans {a b c : Analyzer} (h1 : Extends a b) (h2 : Extends b c) :
    Extends a c := by
  obtain ⟨p1, l1, n1, e1, q1⟩ := h1
  obtain ⟨p2, l2, n2, e2, q2⟩ := h2
  refine ⟨p2.trans p1, Nat.le_trans l1 l2, n1 ++ n2, by rw [e2, e1, List.append_assoc], ?_⟩
  intro t ht
  rcases List.mem_append.mp ht with ht | ht
  · obtain ⟨x1, x2, x3, x4⟩ := q1 t ht
    exact ⟨x1, by omega, x3, x4⟩
  · obtain ⟨x1, x2, x3, x4⟩ := q2 t ht
    exact ⟨by omega, x2, x3, x4⟩

theorem extends_setTimeout (s : Analyzer) (delay : ℚ) (action : TimerAction)
    (hp : isPollTimer ⟨s.timers.lastHandle + 1, false, delay, action⟩ = false)
    (hr : isReloadTimer ⟨s.timers.lastHandle + 1, false, delay, action⟩ = false) :
    Extends s (s.setTimeout delay action) := by
  refine ⟨rfl, by simp [Analyzer.setTimeout, TimerTable.setTimer], _, rfl, ?_⟩
  intro t ht
  rw [List.mem_singleton.mp ht]
  exact ⟨by simp, by simp [Analyzer.setTimeout, TimerTable.setTimer], hp, hr⟩

theorem extends_updateProgress (printReal : ℚ → String) (data : StatusSnapshot)
    (s : Analyzer) : Extends s (updateProgress printReal data s) := by
  unfold updateProgress
  split
  · exact ⟨rfl, Nat.le_refl _, [], by simp, by simp⟩
  · exact Extends.refl s

theorem extends_updateStatusText (data : StatusSnapshot) (s : Analyzer) :
    Extends s (updateStatusText data s) := by
  unfold updateStatusText
  split
  · unfold animateStatusText
    exact Extends.trans ⟨rfl, Nat.le_refl _, [], by simp, by simp⟩
      (extends_setTimeout _ _ _ rfl rfl)
  · exact Extends.refl s

theorem extends_animateNumberUpdate (elementId text : String) (newValue : Int) (s : Analyzer) :
    Extends s (animateNumberUpdate elementId text newValue s) := by
  simp only [animateNumberUpdate]
  split
  · exact Extends.refl s
  · refine ⟨rfl, by simp [TimerTable.setTimer], _, rfl, ?_⟩
    intro t ht
    rw [List.mem_singleton.mp ht]
    exact ⟨by simp, by simp [TimerTable.setTimer], rfl, rfl⟩

theorem extends_updateStat (s : Analyzer) (entry : String × Option Int) :
    Extends s (updateStat s entry) := by
  unfold updateStat
  split
  · exact extends_animateNumberUpdate _ _ _ _
  · exact Extends.refl s

theorem extends_updateAnalysisStats (data : StatusSnapshot) (s : Analyzer) :
    Extends s (updateAnalysisStats data s) := by
  unfold updateAnalysisStats
  simp only [List.foldl_cons, List.foldl_nil]
  exact Extends.trans (Extends.trans (extends_updateStat _ _) (extends_updateStat _ _))
    (extends_updateStat _ _)

/-- The display part of `updateAnalysisStatus` (everything before the final status test). -/
theorem extends_display (printReal : ℚ → String) (data : StatusSnapshot) (s : Analyzer) :
    Extends s
      (updateAnalysisStats data (updateStatusText data (updateProgress printReal data s))) :=
  Extends.trans
    (Extends.trans (extends_updateProgress printReal data s) (extends_updateStatusText data _))
    (extends_updateAnalysisStats data _)

theorem Extends.consistent {s s' : Analyzer} (h : Extends s s') (hs : PollerConsistent s) :
    PollerConsistent s' := by
  obtain ⟨p, l, added, e, q⟩ := h
  obtain ⟨hw, hz, hheld⟩ := hs
  refine ⟨?_, by rw [p]; exact hz, ?_⟩
  · intro t ht
    rw [e] at ht
    rcases List.mem_append.mp ht with ht | ht
    · have := hw t ht
      omega
    · have := q t ht
      omega
  · intro t ht hpt
    rw [e] at ht
    rcases List.mem_append.mp ht with ht | ht
    · rw [p]; exact hheld t ht hpt
    · rw [(q t ht).2.2.1] at hpt
      cases hpt

/-- The guard `if (this.pollInterval) { clearInterval(...); this.pollInterval = null }`. -/
theorem handleAnalysisComplete_guard (status : String) (s : Analyzer) (hs : PollerConsistent s) :
    ∃ kept : List Timer, (∀ t ∈ kept, t ∈ s.timers.active ∧ isPollTimer t = false) ∧
      handleAnalysisComplete status s =
        (if status = "completed" then
          (showSuccessMessage
            { s with timers := ⟨kept, s.timers.lastHandle⟩, pollInterval := none }).setTimeout
            2000 TimerAction.reloadPage
        else if status = "failed" then
          showErrorMessage { s with timers := ⟨kept, s.timers.lastHandle⟩, pollInterval := none }
        else { s with timers := ⟨kept, s.timers.lastHandle⟩, pollInterval := none }) := by
  cases hp : s.pollInterval with
  | none =>
    refine ⟨s.timers.active, fun t ht => ⟨ht, no_poll_of_null s hs hp t ht⟩, ?_⟩
    simp only [handleAnalysisComplete, hp]
    have : ({ s with timers := ⟨s.timers.active, s.timers.lastHandle⟩, pollInterval := none }
        : Analyzer) = s := by
      cases s; simp_all
    rw [this]
  | some h =>
    have hne : h ≠ 0 := by
      intro h0; rw [h0] at hp; exact hs.2.1 hp
    refine ⟨(s.timers.clear h).active, fun t ht => ⟨?_, no_poll_after_clear s hs h hp t ht⟩, ?_⟩
    · simp only [TimerTable.clear, List.mem_filter] at ht
      exact ht.1
    · simp [handleAnalysisComplete, hp, hne, TimerTable.clear]

theorem handleAnalysisComplete_completed (s : Analyzer) (hs : PollerConsistent s) :
    (handleAnalysisComplete "completed" s).pollInterval = none ∧
      ∃ kept : List Timer, (∀ t ∈ kept, t ∈ s.timers.active ∧ isPollTimer t = false) ∧
        (handleAnalysisComplete "completed" s).timers.active
          = (kept ++ [⟨s.timers.lastHandle + 1, false, 5000,
                TimerAction.removeAlert s.alerts.length⟩])
            ++ [⟨s.timers.lastHandle + 2, false, 2000, TimerAction.reloadPage⟩] := by
  obtain ⟨kept, hk, heq⟩ := handleAnalysisComplete_guard "completed" s hs
  rw [heq]
  refine ⟨rfl, kept, hk, ?_⟩
  simp [showSuccessMessage, showAlert, Analyzer.setTimeout, TimerTable.setTimer]

theorem handleAnalysisComplete_failed (s : Analyzer) (hs : PollerConsistent s) :
    (handleAnalysisComplete "failed" s).pollInterval = none ∧
      ∃ kept : List Timer, (∀ t ∈ kept, t ∈ s.timers.active ∧ isPollTimer t = false) ∧
        (handleAnalysisComplete "failed" s).timers.active
          = kept ++ [⟨s.timers.lastHandle + 1, false, 5000,
                TimerAction.removeAlert s.alerts.length⟩] := by
  obtain ⟨kept, hk, heq⟩ := handleAnalysisComplete_guard "failed" s hs
  rw [heq]
  refine ⟨rfl, kept, hk, ?_⟩
  simp [showErrorMessage, showAlert, Analyzer.setTimeout, TimerTable.setTimer]

/-- A timer that survives the display part either was active before and is not newer than
the old table, or is neither a poll nor a reload. -/
theorem old_or_harmless {s s' : Analyzer} (h : Extends s s') (hw : s.timers.WellFormed)
    (t : Timer) (ht : t ∈ s'.timers.active) :
    (t ∈ s.timers.active ∧ t.handle ≤ s.timers.lastHandle) ∨ isReloadTimer t = false := by
  obtain ⟨_, _, added, e, q⟩ := h
  rw [e] at ht
  rcases List.mem_append.mp ht with ht | ht
  · exact Or.inl ⟨ht, (hw t ht).2⟩
  · exact Or.inr (q t ht).2.2.2

/-- C7: handling a snapshot whose status is `completed` leaves `pollInterval` null and no
polling timer active, and among the timers set during the handling exactly one is a page
reload, a one-shot timer with a delay of 2000 ms. -/
theorem completed_stops_polling_reloads_once (printReal : ℚ → String)
    (data : StatusSnapshot) (s : Analyzer) (hs : PollerConsistent s)
    (hd : data.status = "completed") :
    (updateAnalysisStatusResume printReal data s).pollInterval = none ∧
      pollTimers (updateAnalysisStatusResume printReal data s) = [] ∧
      ∃ h, (scheduledSince s (updateAnalysisStatusResume printReal data s)).filter isReloadTimer
        = [⟨h, false, 2000, TimerAction.reloadPage⟩] := by
  have hE := extends_display printReal data s
  have hs3 := hE.consistent hs
  have hres : updateAnalysisStatusResume printReal data s
      = handleAnalysisComplete "completed"
          (updateAnalysisStats data (updateStatusText data (updateProgress printReal data s))) := by
    simp [updateAnalysisStatusResume, hd]
  obtain ⟨hnull, kept, hk, hact⟩ := handleAnalysisComplete_completed _ hs3
  rw [hres]
  refine ⟨hnull, ?_,
    (updateAnalysisStats data (updateStatusText data (updateProgress printReal data s))).timers.lastHandle
      + 2, ?_⟩
  · unfold pollTimers
    rw [hact, List.filter_eq_nil_iff]
    intro t ht
    simp only [List.mem_append, List.mem_singleton] at ht
    rcases ht with (ht | rfl) | rfl
    · simp [(hk t ht).2]
    · simp [isPollTimer]
    · simp [isPollTimer]
  · unfold scheduledSince
    rw [hact, List.filter_filter]
    apply filter_append_singleton_pos
    · intro t ht
      simp only [List.mem_append, List.mem_singleton] at ht
      rcases ht with ht | rfl
      · rcases old_or_harmless hE hs.1 t (hk t ht).1 with h | h
        · simp only [Bool.and_eq_false_iff, decide_eq_false_iff_not]
          right; omega
        · simp [h]
      · simp [isReloadTimer]
    · have := hE.2.1
      simp only [isReloadTimer, Bool.true_and, decide_eq_true_eq]
      omega

/-- C8: handling a snapshot whose status is `failed` leaves `pollInterval` null and no
polling timer active, and sets no page-reload timer: every reload timer active afterwards
was already active before. -/
theorem failed_stops_polling_never_reloads (printReal : ℚ → String)
    (data : StatusSnapshot) (s : Analyzer) (hs : PollerConsistent s)
    (hd : data.status = "failed") :
    (updateAnalysisStatusResume printReal data s).pollInterval = none ∧
      pollTimers (updateAnalysisStatusResume printReal data s) = [] ∧
      (scheduledSince s (updateAnalysisStatusResume printReal data s)).filter isReloadTimer = [] ∧
      ∀ t ∈ (updateAnalysisStatusResume printReal data s).timers.active,
        isReloadTimer t = true → t ∈ s.timers.active := by
  have hE := extends_display printReal data s
  have hs3 := hE.consistent hs
  have hres : updateAnalysisStatusResume printReal data s
      = handleAnalysisComplete "failed"
          (updateAnalysisStats data (updateStatusText data (updateProgress printReal data s))) := by
    simp [updateAnalysisStatusResume, hd]
  obtain ⟨hnull, kept, hk, hact⟩ := handleAnalysisComplete_failed _ hs3
  rw [hres]
  have hold : ∀ t ∈ (handleAnalysisComplete "failed"
      (updateAnalysisStats data (updateStatusText data (updateProgress printReal data s)))).timers.active,
      isReloadTimer t = true → t ∈ s.timers.active ∧ t.handle ≤ s.timers.lastHandle := by
    intro t ht hr
    rw [hact] at ht
    simp only [List.mem_append, List.mem_singleton] at ht
    rcases ht with ht | rfl
    · rcases old_or_harmless hE hs.1 t (hk t ht).1 with h | h
      · exact h
      · rw [h] at hr; cases hr
    · simp [isReloadTimer] at hr
  refine ⟨hnull, ?_, ?_, fun t ht hr => (hold t ht hr).1⟩
  · unfold pollTimers
    rw [hact, List.filter_eq_nil_iff]
    intro t ht
    simp only [List.mem_append, List.mem_singleton] at ht
    rcases ht with ht | rfl
    · simp [(hk t ht).2]
    · simp [isPollTimer]
  · unfold scheduledSince
    rw [List.filter_filter, List.filter_eq_nil_iff]
    intro t ht
    simp only [Bool.and_eq_true, decide_eq_true_eq, not_and]
    intro hr hlt
    have := (hold t ht hr).2
    omega

/-- Witness of C7: a finished snapshot arriving on a page that is polling. -/
theorem completed_stops_polling_reloads_once_witness :
    (updateAnalysisStatusResume samplePrinter sampleCompleted samplePolling).pollInterval = none ∧
      pollTimers (updateAnalysisStatusResume samplePrinter sampleCompleted samplePolling) = [] :=
  have h := completed_stops_polling_reloads_once samplePrinter sampleCompleted samplePolling
    samplePolling_consistent rfl
  ⟨h.1, h.2.1⟩

/-- Witness of C8: a failed snapshot arriving on a page that is polling. -/
theorem failed_stops_polling_never_reloads_witness :
    (updateAnalysisStatusResume samplePrinter sampleFailed samplePolling).pollInterval = none ∧
      (scheduledSince samplePolling
        (updateAnalysisStatusResume samplePrinter sampleFailed samplePolling)).filter isReloadTimer = [] :=
  have h := failed_stops_polling_never_reloads samplePrinter sampleFailed samplePolling
    samplePolling_consistent rfl
  ⟨h.1, h.2.2.1⟩

/-! ## Lemmas on metric extraction -/

theorem jsonParse_empty_object : jsonParse "{}" = Except.ok (JSValue.object []) := by
  rfl

theorem metricsRow_empty_object (coerce : JSValue → Except JSError JSNumber) :
    metricsRow coerce (JSValue.object []) = Except.ok emptyBundleRow := by
  rfl

theorem metricsText_of_empty (card : NicheCard) (h : card.nicheMetrics = "") :
    metricsText card = "{}" := by
  unfold metricsText
  rw [h]
  rfl

theorem metricsDataset_of_empty (coerce : JSValue → Except JSError JSNumber) (card : NicheCard)
    (index : Nat) (h : card.nicheMetrics = "") :
    ∃ d, metricsDataset coerce card index = Except.ok d ∧ d.data = emptyBundleRow ∧
      d.label = datasetLabel card index := by
  refine ⟨{ label := datasetLabel card index, data := emptyBundleRow,
             backgroundColor := colors.getD index "",
             borderColor :=
               String.mk (replaceFirst "0.6".toList "1".toList (colors.getD index "").toList),
             borderWidth := 1 }, ?_, rfl, rfl⟩
  unfold metricsDataset
  rw [metricsText_of_empty card h, jsonParse_empty_object]
  rfl

theorem metricsDataset_of_syntaxError (coerce : JSValue → Except JSError JSNumber)
    (card : NicheCard) (index : Nat)
    (h : jsonParse (metricsText card) = Except.error JSError.syntaxError) :
    metricsDataset coerce card index = Except.error JSError.syntaxError := by
  unfold metricsDataset
  rw [h]
  rfl

theorem extractMetricsLoop_of_empty (coerce : JSValue → Except JSError JSNumber) :
    ∀ (cards : List NicheCard) (index : Nat) (acc : List Dataset),
      (∀ c ∈ cards.take (5 - index), c.nicheMetrics = "") →
      ∃ ds, extractMetricsLoop coerce cards index acc = Except.ok (acc ++ ds) ∧
        ds.length = min cards.length (5 - index) ∧ ∀ d ∈ ds, d.data = emptyBundleRow := by
  intro cards
  induction cards with
  | nil =>
    intro index acc _
    exact ⟨[], by simp [extractMetricsLoop], by simp, by simp⟩
  | cons c rest ih =>
    intro index acc h
    by_cases hi : index ≥ 5
    · obtain ⟨ds, h1, h2, h3⟩ := ih (index + 1) acc (by
        have : 5 - (index + 1) = 0 := by omega
        simp [this])
      refine ⟨ds, ?_, ?_, h3⟩
      · simp only [extractMetricsLoop, hi, if_true]
        exact h1
      · rw [h2]
        simp only [List.length_cons]
        omega
    · have hpos : 5 - index = (5 - (index + 1)) + 1 := by omega
      rw [hpos, List.take_succ_cons] at h
      obtain ⟨d, hd, hdata, _⟩ := metricsDataset_of_empty coerce c index
        (h c (List.mem_cons_self _ _))
      obtain ⟨ds, h1, h2, h3⟩ := ih (index + 1) (acc ++ [d])
        (fun x hx => h x (List.mem_cons_of_mem _ hx))
      refine ⟨d :: ds, ?_, ?_, ?_⟩
      · simp only [extractMetricsLoop, hi, if_false, hd]
        rw [h1]
        simp
      · simp only [List.length_cons, h2]
        omega
      · intro x hx
        rcases List.mem_cons.mp hx with rfl | hx
        · exact hdata
        · exact h3 x hx

theorem extractMetricsLoop_of_syntaxError (coerce : JSValue → Except JSError JSNumber) :
    ∀ (cards : List NicheCard) (index : Nat) (acc : List Dataset) (i : Nat) (c : NicheCard),
      index + i < 5 → cards[i]? = some c →
      jsonParse (metricsText c) = Except.error JSError.syntaxError →
      ∃ e, extractMetricsLoop coerce cards index acc = Except.error e := by
  intro cards
  induction cards with
  | nil =>
    intro index acc i c _ hc _
    simp at hc
  | cons x rest ih =>
    intro index acc i c hlt hc hbad
    have hi : ¬ index ≥ 5 := by omega
    cases i with
    | zero =>
      simp only [List.getElem?_cons_zero, Option.some.injEq] at hc
      subst hc
      refine ⟨JSError.syntaxError, ?_⟩
      simp only [extractMetricsLoop, hi, if_false,
        metricsDataset_of_syntaxError coerce x index hbad]
    | succ n =>
      simp only [List.getElem?_cons_succ] at hc
      cases hx : metricsDataset coerce x index with
      | error e =>
        exact ⟨e, by simp only [extractMetricsLoop, hi, if_false, hx]⟩
      | ok d =>
        obtain ⟨e, he⟩ := ih (index + 1) (acc ++ [d]) n c (by omega) hc hbad
        exact ⟨e, by simp only [extractMetricsLoop, hi, if_false, hx]; exact he⟩

/-! ## Claims on metric extraction -/

/-- C9, evaluated on the code: for a card whose metric bundle is `{}` no exception is raised,
but the four normalised values are `NaN` (`undefined / max` is `NaN` and `Math.min(100, NaN)`
is `NaN`); only the viral score, guarded by `|| 0`, is 0. The row is not all zero. -/
theorem empty_bundle_row_is_nan (coerce : JSValue → Except JSError JSNumber) :
    (extractMetricsData coerce [⟨"{}", some "Cooking"⟩]).map (fun ds => ds.map Dataset.data)
        = Except.ok [[nanValue, nanValue, zeroValue, nanValue, nanValue]] ∧
      normalizeMetric coerce JSValue.undefined (JSNumber.real 100000) = Except.ok nanValue ∧
      allZero [nanValue, nanValue, zeroValue, nanValue, nanValue] = false := by
  refine ⟨rfl, rfl, ?_⟩
  decide

/-- C10 fails as stated: a card whose `data-niche-metrics` is not valid JSON makes
`JSON.parse` throw, and `extractMetricsData` lets the `SyntaxError` escape: no dataset is
produced, not even for the valid cards before it. -/
theorem malformed_metrics_throw :
    jsonParse "{viewsPerDay: 5}" = Except.error JSError.syntaxError ∧
      extractMetricsData coerceToNaN [⟨"{viewsPerDay: 5}", some "Cooking"⟩]
        = Except.error JSError.syntaxError ∧
      extractMetricsData coerceToNaN [⟨"{}", some "Fitness"⟩, ⟨"not json", some "Cooking"⟩]
        = Except.error JSError.syntaxError := by
  refine ⟨rfl, rfl, rfl⟩

/-- C10 as amended: when the `data-niche-metrics` attribute of each of the first five cards is
empty, the bundle is the empty object and `extractMetricsData` returns one dataset per such
card; when the text of one of the first five cards is not valid JSON, an exception escapes
from `extractMetricsData` and no dataset is returned. -/
theorem empty_metrics_degrade_malformed_throw (coerce : JSValue → Except JSError JSNumber)
    (cards : List NicheCard) :
    ((∀ c ∈ cards.take 5, c.nicheMetrics = "") →
        (∀ c ∈ cards.take 5, jsonParse (metricsText c) = Except.ok (JSValue.object [])) ∧
        ∃ ds, extractMetricsData coerce cards = Except.ok ds ∧
          ds.length = min cards.length 5 ∧ ∀ d ∈ ds, d.data = emptyBundleRow) ∧
      (∀ i c, i < 5 → cards[i]? = some c →
        jsonParse (metricsText c) = Except.error JSError.syntaxError →
        ∃ e, extractMetricsData coerce cards = Except.error e) := by
  constructor
  · intro h
    constructor
    · intro c hc
      rw [metricsText_of_empty c (h c hc)]
      rfl
    · obtain ⟨ds, h1, h2, h3⟩ := extractMetricsLoop_of_empty coerce cards 0 [] h
      exact ⟨ds, by simpa [extractMetricsData] using h1, h2, h3⟩
  · intro i c hi hc hbad
    exact extractMetricsLoop_of_syntaxError coerce cards 0 [] i c (by omega) hc hbad

/-- Witness of C10 as amended: one card with an empty attribute, and one with a text that is
not JSON. -/
theorem empty_metrics_degrade_malformed_throw_witness :
    (∃ ds, extractMetricsData coerceToNaN [⟨"", none⟩] = Except.ok ds ∧ ds.length = 1) ∧
      (∃ e, extractMetricsData coerceToNaN [⟨"", none⟩, ⟨"not json", none⟩]
        = Except.error e) :=
  ⟨by
    obtain ⟨ds, h1, h2, _⟩ :=
      ((empty_metrics_degrade_malformed_throw coerceToNaN [⟨"", none⟩]).1
        (by intro c hc; simp at hc; rw [hc])).2
    exact ⟨ds, h1, h2⟩,
   (empty_metrics_degrade_malformed_throw coerceToNaN [⟨"", none⟩, ⟨"not json", none⟩]).2
     1 ⟨"not json", none⟩ (by decide) rfl rfl⟩

/-! ## Claims on `normalizeMetric` -/

theorem normalizeMetric_real (coerce : JSValue → Except JSError JSNumber) (v m : ℚ)
    (hm : 0 < m) :
    normalizeMetric coerce (JSValue.number (JSNumber.real v)) (JSNumber.real m)
      = Except.ok (JSValue.number (JSNumber.real (min 100 (v / m * 100)))) := by
  have hne : m ≠ 0 := ne_of_gt hm
  simp [normalizeMetric, toNumber, jsDiv, jsMul, mathMin, hne]

/-- C11, evaluated on the code: `normalizeMetric(-50000, 100000)` is -50, below the scale from
0 to 100 that the method's comment announces, since `Math.min` bounds the quotient from above
only; and `NaN` stays `NaN`. -/
theorem normalizeMetric_no_lower_clamp :
    normalizeMetric coerceToNaN (JSValue.number (JSNumber.real (-50000))) (JSNumber.real 100000)
        = Except.ok (JSValue.number (JSNumber.real (-50))) ∧
      inScale (JSValue.number (JSNumber.real (-50))) = false ∧
      normalizeMetric coerceToNaN (JSValue.number JSNumber.nan) (JSNumber.real 100000)
        = Except.ok (JSValue.number JSNumber.nan) ∧
      inScale (JSValue.number JSNumber.nan) = false := by
  refine ⟨?_, by decide, rfl, by decide⟩
  rw [normalizeMetric_real coerceToNaN (-50000) 100000 (by norm_num)]
  norm_num

/-- On a finite value and a positive finite maximum `normalizeMetric` returns
`min(100, value / maxValue * 100)`, which is at most 100; it is at least 0, and so within the
scale, exactly when the value is not negative. -/
theorem normalizeMetric_upper_clamp (coerce : JSValue → Except JSError JSNumber) (v m : ℚ)
    (hm : 0 < m) :
    normalizeMetric coerce (JSValue.number (JSNumber.real v)) (JSNumber.real m)
        = Except.ok (JSValue.number (JSNumber.real (min 100 (v / m * 100)))) ∧
      min 100 (v / m * 100) ≤ 100 ∧
      (inScale (JSValue.number (JSNumber.real (min 100 (v / m * 100)))) = true ↔ 0 ≤ v) := by
  refine ⟨normalizeMetric_real coerce v m hm, min_le_left _ _, ?_⟩
  have hpos : 0 ≤ v / m * 100 ↔ 0 ≤ v := by
    constructor
    · intro h
      have h1 : 0 ≤ v / m := by
        by_contra hc
        push_neg at hc
        have : v / m * 100 < 0 := by nlinarith
        linarith
      by_contra hc
      push_neg at hc
      have : v / m < 0 := div_neg_of_neg_of_pos hc hm
      linarith
    · intro h
      have : 0 ≤ v / m := div_nonneg h (le_of_lt hm)
      linarith
  simp only [inScale, decide_eq_true_eq, le_min_iff, min_le_iff, le_refl, true_or, and_true]
  constructor
  · intro h; exact hpos.mp h.2
  · intro h; exact ⟨by norm_num, hpos.mpr h⟩

/-! ## Lemmas on the counter animation -/

theorem stepDurationFor_small (d : Nat) (h1 : 1 ≤ d) (h20 : d ≤ 20) : stepDurationFor d = 50 := by
  unfold stepDurationFor
  have hd : (0 : ℚ) < d := by exact_mod_cast h1
  have hle : (d : ℚ) * 50 ≤ 1000 := by
    have : (d : ℚ) ≤ 20 := by exact_mod_cast h20
    linarith
  rw [min_eq_right hle]
  field_simp

theorem stepDurationFor_large (d : Nat) (h20 : 20 < d) : stepDurationFor d = 1000 / d := by
  unfold stepDurationFor
  have hle : (1000 : ℚ) ≤ (d : ℚ) * 50 := by
    have : (20 : ℚ) < d := by exact_mod_cast h20
    linarith
  rw [min_eq_left hle]

theorem stepDurationFor_le_fifty (d : Nat) (h1 : 1 ≤ d) : stepDurationFor d ≤ 50 := by
  by_cases h : d ≤ 20
  · rw [stepDurationFor_small d h1 h]
  · have h20 : 20 < d := by omega
    rw [stepDurationFor_large d h20]
    have hd : (0 : ℚ) < d := by exact_mod_cast h1
    rw [div_le_iff₀ hd]
    have : (20 : ℚ) < d := by exact_mod_cast h20
    linarith

theorem stepDurationFor_antitone (d1 d2 : Nat) (h1 : 1 ≤ d1) (h12 : d1 ≤ d2) :
    stepDurationFor d2 ≤ stepDurationFor d1 := by
  by_cases h : d1 ≤ 20
  · rw [stepDurationFor_small d1 h1 h]
    exact stepDurationFor_le_fifty d2 (by omega)
  · have ha : 20 < d1 := by omega
    have hb : 20 < d2 := by omega
    rw [stepDurationFor_large d1 ha, stepDurationFor_large d2 hb]
    have hd : (0 : ℚ) < d1 := by exact_mod_cast h1
    have hle : (d1 : ℚ) ≤ d2 := by exact_mod_cast h12
    exact div_le_div_of_nonneg_left (by norm_num) hd hle

theorem animateNumberUpdate_timer (elementId text : String) (newValue : Int) (s : Analyzer)
    (hne : (parseInt text).getD 0 ≠ newValue) :
    animateNumberUpdate elementId text newValue s =
      { s with timers :=
          ⟨s.timers.active ++
            [⟨s.timers.lastHandle + 1, true,
              stepDurationFor (newValue - (parseInt text).getD 0).natAbs,
              TimerAction.counterStep elementId
                (if newValue > (parseInt text).getD 0 then 1 else -1) newValue
                ((parseInt text).getD 0)⟩],
            s.timers.lastHandle + 1⟩ } := by
  simp only [animateNumberUpdate, hne, if_false, TimerTable.setTimer, stepDurationFor]

/-- C13: when the displayed value differs from the new one by `d` steps, `animateNumberUpdate`
installs an interval whose delay is `min(1000, 50 d) / d`; the nominal total `d` times that
delay is `min(1000, 50 d)`, at most 1000 ms; the delay is 50 ms up to 20 steps and `1000 / d`
beyond, and never grows with `d`. -/
theorem animation_duration_capped (elementId text : String) (newValue : Int) (s : Analyzer)
    (hne : (parseInt text).getD 0 ≠ newValue) :
    (∃ t, (animateNumberUpdate elementId text newValue s).timers.active
          = s.timers.active ++ [t] ∧ t.repeating = true ∧
        t.delay = stepDurationFor (newValue - (parseInt text).getD 0).natAbs) ∧
      ((newValue - (parseInt text).getD 0).natAbs : ℚ)
          * stepDurationFor (newValue - (parseInt text).getD 0).natAbs
        = min 1000 (50 * ((newValue - (parseInt text).getD 0).natAbs : ℚ)) ∧
      ((newValue - (parseInt text).getD 0).natAbs : ℚ)
          * stepDurationFor (newValue - (parseInt text).getD 0).natAbs ≤ 1000 ∧
      (∀ d : Nat, 1 ≤ d → d ≤ 20 → stepDurationFor d = 50) ∧
      (∀ d : Nat, 20 < d → stepDurationFor d = 1000 / d) ∧
      (∀ d1 d2 : Nat, 1 ≤ d1 → d1 ≤ d2 → stepDurationFor d2 ≤ stepDurationFor d1) := by
  have hd : 1 ≤ (newValue - (parseInt text).getD 0).natAbs := by
    have : newValue - (parseInt text).getD 0 ≠ 0 := by
      intro h; apply hne; omega
    exact Int.natAbs_pos.mpr this
  have hq : (0 : ℚ) < ((newValue - (parseInt text).getD 0).natAbs : ℚ) := by exact_mod_cast hd
  have htotal : ((newValue - (parseInt text).getD 0).natAbs : ℚ)
        * stepDurationFor (newValue - (parseInt text).getD 0).natAbs
      = min 1000 (50 * ((newValue - (parseInt text).getD 0).natAbs : ℚ)) := by
    unfold stepDurationFor
    rw [mul_div_cancel₀ _ (ne_of_gt hq), mul_comm]
  refine ⟨⟨⟨s.timers.lastHandle + 1, true,
      stepDurationFor (newValue - (parseInt text).getD 0).natAbs,
      TimerAction.counterStep elementId
        (if newValue > (parseInt text).getD 0 then 1 else -1) newValue
        ((parseInt text).getD 0)⟩, ?_, rfl, rfl⟩, htotal, ?_, stepDurationFor_small,
    stepDurationFor_large, stepDurationFor_antitone⟩
  · rw [animateNumberUpdate_timer elementId text newValue s hne]
  · rw [htotal]
    exact min_le_left _ _

/-- Witness of C13: a counter showing 5 that is updated to 8. -/
theorem animation_duration_capped_witness :
    ((8 - (parseInt "5").getD 0 : Int).natAbs : ℚ)
        * stepDurationFor (8 - (parseInt "5").getD 0 : Int).natAbs ≤ 1000 :=
  (animation_duration_capped "total_videos_analyzed" "5" 8 samplePolling (by decide)).2.2.1


theorem find_appended_timer (old : List Timer) (t : Timer) (h : Nat)
    (hold : ∀ u ∈ old, u.handle ≠ h) (ht : t.handle = h) :
    (old ++ [t]).find? (fun u => u.handle == h) = some t := by
  induction old with
  | nil => simp [List.find?, ht]
  | cons a as ih =>
    have ha : (a.handle == h) = false := by
      simp only [beq_eq_false_iff_ne, ne_eq]
      exact hold a (List.mem_cons_self _ _)
    simp only [List.cons_append, List.find?, ha]
    exact ih (fun u hu => hold u (List.mem_cons_of_mem _ hu))

theorem map_untouched (old : List Timer) (h : Nat) (f : Timer → Timer)
    (hold : ∀ u ∈ old, u.handle ≠ h) :
    old.map (fun t => if t.handle == h then f t else t) = old := by
  induction old with
  | nil => rfl
  | cons a as ih =>
    have ha : (a.handle == h) = false := by
      simp only [beq_eq_false_iff_ne, ne_eq]
      exact hold a (List.mem_cons_self _ _)
    simp only [List.map_cons, ha, Bool.false_eq_true, if_false]
    rw [ih (fun u hu => hold u (List.mem_cons_of_mem _ hu))]

theorem filter_untouched (old : List Timer) (h : Nat) (hold : ∀ u ∈ old, u.handle ≠ h) :
    old.filter (fun t => t.handle != h) = old := by
  rw [List.filter_eq_self]
  intro u hu
  simp only [bne_iff_ne, ne_eq]
  exact hold u hu

/-- One firing of the counting callback when its timer is the last entry of the table. -/
theorem counterTick_step (s : Analyzer) (old : List Timer) (h : Nat) (delay : ℚ)
    (elementId : String) (inc newValue c : Int) (hold : ∀ u ∈ old, u.handle ≠ h)
    (hact : s.timers.active
      = old ++ [⟨h, true, delay, TimerAction.counterStep elementId inc newValue c⟩]) :
    (c + inc ≠ newValue →
        (counterTick h s).timers.active
          = old ++ [⟨h, true, delay, TimerAction.counterStep elementId inc newValue (c + inc)⟩] ∧
        (counterTick h s).timers.lastHandle = s.timers.lastHandle ∧
        (counterTick h s).counters elementId = some (toLocaleString (c + inc))) ∧
      (c + inc = newValue →
        (counterTick h s).timers.active
          = old ++ [⟨s.timers.lastHandle + 1, false, 1000,
              TimerAction.clearSuccess elementId⟩] ∧
        (counterTick h s).counters elementId = some (toLocaleString newValue)) := by
  have hfind := find_appended_timer old
    ⟨h, true, delay, TimerAction.counterStep elementId inc newValue c⟩ h hold rfl
  have hstore : (storeCurrent h (c + inc) s.timers).active
      = old ++ [⟨h, true, delay, TimerAction.counterStep elementId inc newValue (c + inc)⟩] := by
    simp only [storeCurrent, hact, List.map_append, map_untouched old h _ hold]
    simp
  constructor
  · intro hne
    simp only [counterTick, hact, hfind, hne, if_false, setCounterText]
    exact ⟨hstore, rfl, by simp⟩
  · intro heq
    simp only [counterTick, hact, hfind, heq, if_true, setCounterText, addCounterClass,
      Analyzer.setTimeout, TimerTable.setTimer, TimerTable.clear]
    refine ⟨?_, trivial⟩
    rw [← heq, hstore, List.filter_append, filter_untouched old h hold]
    simp [storeCurrent]

/-- The table after `k` firings, as long as the target has not been reached before. -/
theorem counterTick_iterate (s0 : Analyzer) (old : List Timer) (h : Nat) (delay : ℚ)
    (elementId : String) (inc newValue cur : Int) (hold : ∀ u ∈ old, u.handle ≠ h)
    (hact : s0.timers.active
      = old ++ [⟨h, true, delay, TimerAction.counterStep elementId inc newValue cur⟩]) :
    ∀ k : Nat, (∀ j : Nat, 1 ≤ j → j ≤ k → cur + j * inc ≠ newValue) →
      (Nat.iterate (counterTick h) k s0).timers.active
          = old ++ [⟨h, true, delay,
              TimerAction.counterStep elementId inc newValue (cur + k * inc)⟩] ∧
        (Nat.iterate (counterTick h) k s0).timers.lastHandle = s0.timers.lastHandle ∧
        (1 ≤ k → (Nat.iterate (counterTick h) k s0).counters elementId
          = some (toLocaleString (cur + k * inc))) := by
  intro k
  induction k with
  | zero =>
    intro _
    refine ⟨?_, rfl, ?_⟩
    · simpa using hact
    · intro h0; omega
  | succ n ih =>
    intro hfar
    obtain ⟨h1, h2, _⟩ := ih (fun j hj1 hjn => hfar j hj1 (by omega))
    have hstep := (counterTick_step (Nat.iterate (counterTick h) n s0) old h delay elementId inc
      newValue (cur + n * inc) hold h1).1
    have hne : cur + n * inc + inc ≠ newValue := by
      have := hfar (n + 1) (by omega) (Nat.le_refl _)
      intro hc
      apply this
      push_cast
      linarith
    obtain ⟨g1, g2, g3⟩ := hstep hne
    have hcast : cur + ((n + 1 : Nat) : Int) * inc = cur + n * inc + inc := by
      push_cast
      ring
    rw [Function.iterate_succ_apply', hcast]
    exact ⟨g1, by rw [g2, h2], fun _ => g3⟩

theorem timerActive_appended (s : Analyzer) (old : List Timer) (t : Timer) (h : Nat)
    (hold : ∀ u ∈ old, u.handle ≠ h) (hact : s.timers.active = old ++ [t]) :
    timerActive h s = decide (t.handle = h) := by
  unfold timerActive
  rw [hact, List.any_append]
  have : old.any (fun u => u.handle == h) = false := by
    rw [List.any_eq_false]
    intro u hu
    simp only [beq_iff_eq]
    exact hold u hu
  rw [this]
  by_cases hth : t.handle = h <;> simp [hth]

theorem counterCurrent_appended (s : Analyzer) (old : List Timer) (h : Nat) (delay : ℚ)
    (elementId : String) (inc newValue c : Int) (hold : ∀ u ∈ old, u.handle ≠ h)
    (hact : s.timers.active
      = old ++ [⟨h, true, delay, TimerAction.counterStep elementId inc newValue c⟩]) :
    counterCurrent h s = some c := by
  unfold counterCurrent
  rw [hact, find_appended_timer old _ h hold rfl]

theorem distance_after_steps (cur newValue : Int) (k : Nat)
    (hk : k ≤ (newValue - cur).natAbs) :
    (newValue - (cur + k * (if newValue > cur then 1 else -1))).natAbs
      = (newValue - cur).natAbs - k := by
  by_cases hgt : newValue > cur
  · simp only [hgt, if_true, mul_one]
    omega
  · simp only [hgt, if_false]
    omega

/-- C12: when the displayed value differs from `newValue` by `d` steps, the interval callback
installed by `animateNumberUpdate` stays active through its first `d - 1` firings, each of
which moves the counter one step closer to `newValue` and displays it; the `d`-th firing
displays `newValue` and clears the timer. When the displayed value already equals `newValue`
no timer is installed. -/
theorem counter_reaches_target (elementId text : String) (newValue : Int) (s : Analyzer)
    (hw : s.timers.WellFormed) (hne : (parseInt text).getD 0 ≠ newValue) :
    (∀ k : Nat, k < (newValue - (parseInt text).getD 0).natAbs →
        timerActive (s.timers.lastHandle + 1)
          (Nat.iterate (counterTick (s.timers.lastHandle + 1)) k
            (animateNumberUpdate elementId text newValue s)) = true ∧
        ∃ c : Int,
          counterCurrent (s.timers.lastHandle + 1)
            (Nat.iterate (counterTick (s.timers.lastHandle + 1)) k
              (animateNumberUpdate elementId text newValue s)) = some c ∧
          (newValue - c).natAbs = (newValue - (parseInt text).getD 0).natAbs - k ∧
          (1 ≤ k →
            (Nat.iterate (counterTick (s.timers.lastHandle + 1)) k
              (animateNumberUpdate elementId text newValue s)).counters elementId
              = some (toLocaleString c))) ∧
      timerActive (s.timers.lastHandle + 1)
        (Nat.iterate (counterTick (s.timers.lastHandle + 1))
          (newValue - (parseInt text).getD 0).natAbs
          (animateNumberUpdate elementId text newValue s)) = false ∧
      (Nat.iterate (counterTick (s.timers.lastHandle + 1))
          (newValue - (parseInt text).getD 0).natAbs
          (animateNumberUpdate elementId text newValue s)).counters elementId
        = some (toLocaleString newValue) ∧
      (∀ shown : String, (parseInt shown).getD 0 = newValue →
        animateNumberUpdate elementId shown newValue s = s) := by
  have hold : ∀ u ∈ s.timers.active, u.handle ≠ s.timers.lastHandle + 1 := by
    intro u hu
    have := (hw u hu).2
    omega
  have h0 := animateNumberUpdate_timer elementId text newValue s hne
  have hact : (animateNumberUpdate elementId text newValue s).timers.active
      = s.timers.active ++ [⟨s.timers.lastHandle + 1, true,
          stepDurationFor (newValue - (parseInt text).getD 0).natAbs,
          TimerAction.counterStep elementId
            (if newValue > (parseInt text).getD 0 then 1 else -1) newValue
            ((parseInt text).getD 0)⟩] := by
    rw [h0]
  have hlast : (animateNumberUpdate elementId text newValue s).timers.lastHandle
      = s.timers.lastHandle + 1 := by
    rw [h0]
  have hdpos : 1 ≤ (newValue - (parseInt text).getD 0).natAbs := by
    have : newValue - (parseInt text).getD 0 ≠ 0 := by
      intro h; apply hne; omega
    exact Int.natAbs_pos.mpr this
  have hfar : ∀ k : Nat, k < (newValue - (parseInt text).getD 0).natAbs →
      ∀ j : Nat, 1 ≤ j → j ≤ k →
        (parseInt text).getD 0 + j * (if newValue > (parseInt text).getD 0 then 1 else -1)
          ≠ newValue := by
    intro k hk j _ hjk hc
    have := distance_after_steps ((parseInt text).getD 0) newValue j (by omega)
    rw [hc] at this
    simp at this
    omega
  have hiter := counterTick_iterate (animateNumberUpdate elementId text newValue s)
    s.timers.active (s.timers.lastHandle + 1) _ elementId _ newValue _ hold hact
  refine ⟨?_, ?_, ?_, ?_⟩
  · intro k hk
    obtain ⟨a1, _, a3⟩ := hiter k (hfar k hk)
    refine ⟨?_, _, counterCurrent_appended _ _ _ _ _ _ _ _ hold a1,
      distance_after_steps _ _ k (by omega), a3⟩
    rw [timerActive_appended _ _ _ _ hold a1]
    simp
  · obtain ⟨k, hk⟩ : ∃ k, (newValue - (parseInt text).getD 0).natAbs = k + 1 :=
      ⟨(newValue - (parseInt text).getD 0).natAbs - 1, by omega⟩
    obtain ⟨a1, a2, _⟩ := hiter k (hfar k (by omega))
    have hreach : (parseInt text).getD 0
          + k * (if newValue > (parseInt text).getD 0 then 1 else -1)
          + (if newValue > (parseInt text).getD 0 then 1 else -1) = newValue := by
      by_cases hgt : newValue > (parseInt text).getD 0
      · simp only [hgt, if_true, mul_one]; omega
      · simp only [hgt, if_false]; omega
    obtain ⟨b1, _⟩ := (counterTick_step _ _ _ _ _ _ _ _ hold a1).2 hreach
    rw [hk, Function.iterate_succ_apply', timerActive_appended _ _ _ _ hold b1]
    simp only [decide_eq_false_iff_not]
    rw [a2, hlast]
    omega
  · obtain ⟨k, hk⟩ : ∃ k, (newValue - (parseInt text).getD 0).natAbs = k + 1 :=
      ⟨(newValue - (parseInt text).getD 0).natAbs - 1, by omega⟩
    obtain ⟨a1, _, _⟩ := hiter k (hfar k (by omega))
    have hreach : (parseInt text).getD 0
          + k * (if newValue > (parseInt text).getD 0 then 1 else -1)
          + (if newValue > (parseInt text).getD 0 then 1 else -1) = newValue := by
      by_cases hgt : newValue > (parseInt text).getD 0
      · simp only [hgt, if_true, mul_one]; omega
      · simp only [hgt, if_false]; omega
    obtain ⟨_, b2⟩ := (counterTick_step _ _ _ _ _ _ _ _ hold a1).2 hreach
    rw [hk, Function.iterate_succ_apply']
    exact b2
  · intro shown hs
    simp [animateNumberUpdate, hs]

/-- Witness of C12: a counter showing 5 is updated to 8 on a page that is polling. -/
theorem counter_reaches_target_witness :
    timerActive 2 (Nat.iterate (counterTick 2) 3
        (animateNumberUpdate "total_videos_analyzed" "5" 8 samplePolling)) = false ∧
      (Nat.iterate (counterTick 2) 3
        (animateNumberUpdate "total_videos_analyzed" "5" 8 samplePolling)).counters
          "total_videos_analyzed" = some (toLocaleString 8) :=
  have h := counter_reaches_target "total_videos_analyzed" "5" 8 samplePolling
    samplePolling_consistent.1 (by decide)
  ⟨h.2.1, h.2.2.1⟩

/-! ## Lemmas on the session id -/

theorem matchResultsHere_of_digit (d : Char) (rest : List Char) (hd : isDecimalDigit d = true) :
    matchResultsHere ("/results/".toList ++ d :: rest)
      = some (d :: rest.takeWhile isDecimalDigit) := by
  have hp : "/results/".toList.isPrefixOf ("/results/".toList ++ d :: rest) = true := by
    rw [List.isPrefixOf_iff_prefix]
    exact List.prefix_append _ _
  have hdrop : ("/results/".toList ++ d :: rest).drop 9 = d :: rest := by
    have : "/results/".toList.length = 9 := by decide
    rw [← this, List.drop_left]
  simp only [matchResultsHere, hp, if_true, hdrop, List.takeWhile_cons, hd]
  simp

theorem matchResultsHere_eq_none_iff (t : List Char) :
    matchResultsHere t = none ↔
      ¬ ∃ d rest, isDecimalDigit d = true ∧ t = "/results/".toList ++ d :: rest := by
  constructor
  · rintro h ⟨d, rest, hd, rfl⟩
    rw [matchResultsHere_of_digit d rest hd] at h
    cases h
  · intro h
    by_contra hc
    apply h
    unfold matchResultsHere at hc
    by_cases hp : "/results/".toList.isPrefixOf t = true
    · simp only [hp, if_true] at hc
      rw [List.isPrefixOf_iff_prefix] at hp
      obtain ⟨u, rfl⟩ := hp
      have hdrop : ("/results/".toList ++ u).drop 9 = u := by
        have : "/results/".toList.length = 9 := by decide
        rw [← this, List.drop_left]
      rw [hdrop] at hc
      cases u with
      | nil => simp at hc
      | cons d rest =>
        refine ⟨d, rest, ?_, rfl⟩
        by_contra hd
        simp [List.takeWhile_cons, hd] at hc
    · exact absurd (if_neg hp) hc

theorem searchResults_eq_none_iff (cs : List Char) :
    searchResults cs = none ↔
      ¬ ∃ pre d rest, isDecimalDigit d = true ∧
          cs = pre ++ ("/results/".toList ++ d :: rest) := by
  induction cs with
  | nil =>
    simp only [searchResults, true_iff]
    rintro ⟨pre, d, rest, _, h⟩
    have := congrArg List.length h
    simp at this
    omega
  | cons c r ih =>
    constructor
    · intro h
      unfold searchResults at h
      cases hm : matchResultsHere (c :: r) with
      | some ds => rw [hm] at h; cases h
      | none =>
        rw [hm] at h
        rintro ⟨pre, d, rest, hd, heq⟩
        cases pre with
        | nil =>
          exact (matchResultsHere_eq_none_iff (c :: r)).mp hm ⟨d, rest, hd, by simpa using heq⟩
        | cons p ps =>
          simp only [List.cons_append, List.cons.injEq] at heq
          exact (ih.mp h) ⟨ps, d, rest, hd, heq.2⟩
    · intro h
      unfold searchResults
      have hm : matchResultsHere (c :: r) = none := by
        rw [matchResultsHere_eq_none_iff]
        rintro ⟨d, rest, hd, heq⟩
        exact h ⟨[], d, rest, hd, by simpa using heq⟩
      rw [hm]
      apply ih.mpr
      rintro ⟨pre, d, rest, hd, heq⟩
      exact h ⟨c :: pre, d, rest, hd, by simp [heq]⟩

theorem getSessionIdFromURL_eq_none_iff (path : String) :
    getSessionIdFromURL path = none ↔ searchResults path.toList = none := by
  unfold getSessionIdFromURL
  cases searchResults path.toList <;> simp

/-! ## Claims on the session id -/

/-- C14 fails as stated: the pattern is not anchored, so a path with segments before
`/results/` or with text after the digits still yields an id, and the poller is started. -/
theorem unanchored_path_yields_id :
    isResultsPath "/admin/results/12/edit" = false ∧
      getSessionIdFromURL "/admin/results/12/edit" = some "12" ∧
      isResultsPath "/results/12abc" = false ∧
      getSessionIdFromURL "/results/12abc" = some "12" ∧
      pollTimers (handleAnalysisStatus "/admin/results/12/edit" ["Running"] samplePolling)
        = [⟨2, true, 3000, TimerAction.pollStatus "12"⟩] := by
  decide

/-- C14 as amended: for a path that starts with `/results/` and a non-empty run of decimal
digits, whatever follows the run, `getSessionIdFromURL` returns that run; it returns null
exactly when the path nowhere contains `/results/` immediately followed by a decimal digit,
and then `handleAnalysisStatus` leaves the state as it is. -/
theorem session_id_found_iff_results_digit (path : String) :
    (∀ d ds post, path = String.mk ("/results/".toList ++ (d :: ds) ++ post) →
        (∀ c ∈ d :: ds, isDecimalDigit c = true) →
        (∀ c, post.head? = some c → isDecimalDigit c = false) →
        getSessionIdFromURL path = some (String.mk (d :: ds))) ∧
      (getSessionIdFromURL path = none ↔
        ¬ ∃ pre d rest, isDecimalDigit d = true ∧
            path.toList = pre ++ ("/results/".toList ++ d :: rest)) ∧
      (getSessionIdFromURL path = none →
        ∀ badges s, handleAnalysisStatus path badges s = s) := by
  refine ⟨?_, ?_, ?_⟩
  · intro d ds post hpath hdig hpost
    have hd : isDecimalDigit d = true := hdig d (List.mem_cons_self _ _)
    have htake : (ds ++ post).takeWhile isDecimalDigit = ds := by
      rw [List.takeWhile_append_of_pos (fun c hc => hdig c (List.mem_cons_of_mem _ hc))]
      cases post with
      | nil => simp
      | cons c r =>
        have := hpost c rfl
        simp [List.takeWhile_cons, this]
    have hm : matchResultsHere ("/results/".toList ++ d :: (ds ++ post))
        = some (d :: ds) := by
      rw [matchResultsHere_of_digit d (ds ++ post) hd, htake]
    have hs : searchResults ("/results/".toList ++ d :: (ds ++ post)) = some (d :: ds) := by
      have hcons : "/results/".toList ++ d :: (ds ++ post)
          = '/' :: ("results/".toList ++ d :: (ds ++ post)) := rfl
      rw [hcons, searchResults, ← hcons, hm]
    subst hpath
    simp only [getSessionIdFromURL, String.toList, List.append_assoc, List.cons_append]
    simp only [List.cons_append, String.toList] at hs
    rw [hs]
  · rw [getSessionIdFromURL_eq_none_iff, searchResults_eq_none_iff]
  · intro h badges s
    simp only [handleAnalysisStatus, h]

/-- Witness of C14 as amended: the path `/results/12abc` yields the id `12`. -/
theorem session_id_found_iff_results_digit_witness :
    getSessionIdFromURL "/results/12abc" = some "12" :=
  (session_id_found_iff_results_digit "/results/12abc").1 '1' ['2'] ['a', 'b', 'c']
    (by decide) (by decide) (by decide)

/-! ## Claims on a running snapshot and on the counter read-back -/

theorem updateStatusText_progress (data : StatusSnapshot) (s : Analyzer) :
    (updateStatusText data s).progressBar = s.progressBar ∧
      (updateStatusText data s).progressText = s.progressText ∧
      (updateStatusText data s).progressChart = s.progressChart := by
  unfold updateStatusText
  split
  · exact ⟨rfl, rfl, rfl⟩
  · exact ⟨rfl, rfl, rfl⟩

theorem animateNumberUpdate_progress (elementId text : String) (newValue : Int)
    (s : Analyzer) :
    (animateNumberUpdate elementId text newValue s).progressBar = s.progressBar ∧
      (animateNumberUpdate elementId text newValue s).progressText = s.progressText ∧
      (animateNumberUpdate elementId text newValue s).progressChart = s.progressChart := by
  simp only [animateNumberUpdate]
  split
  · exact ⟨rfl, rfl, rfl⟩
  · exact ⟨rfl, rfl, rfl⟩

theorem updateStat_progress (s : Analyzer) (entry : String × Option Int) :
    (updateStat s entry).progressBar = s.progressBar ∧
      (updateStat s entry).progressText = s.progressText ∧
      (updateStat s entry).progressChart = s.progressChart := by
  unfold updateStat
  split
  · exact animateNumberUpdate_progress _ _ _ _
  · exact ⟨rfl, rfl, rfl⟩

theorem updateAnalysisStats_progress (data : StatusSnapshot) (s : Analyzer) :
    (updateAnalysisStats data s).progressBar = s.progressBar ∧
      (updateAnalysisStats data s).progressText = s.progressText ∧
      (updateAnalysisStats data s).progressChart = s.progressChart := by
  unfold updateAnalysisStats
  simp only [List.foldl_cons, List.foldl_nil]
  obtain ⟨a1, a2, a3⟩ := updateStat_progress s ("total_videos_analyzed", data.total_videos_analyzed)
  obtain ⟨b1, b2, b3⟩ := updateStat_progress
    (updateStat s ("total_videos_analyzed", data.total_videos_analyzed))
    ("total_channels_found", data.total_channels_found)
  obtain ⟨c1, c2, c3⟩ := updateStat_progress
    (updateStat (updateStat s ("total_videos_analyzed", data.total_videos_analyzed))
      ("total_channels_found", data.total_channels_found))
    ("total_niches_identified", data.total_niches_identified)
  exact ⟨by rw [c1, b1, a1], by rw [c2, b2, a2], by rw [c3, b3, a3]⟩

theorem Extends.pollTimers_eq {s s' : Analyzer} (h : Extends s s') :
    pollTimers s' = pollTimers s := by
  obtain ⟨_, _, added, e, q⟩ := h
  unfold pollTimers
  rw [e, List.filter_append]
  have : added.filter isPollTimer = [] := by
    rw [List.filter_eq_nil_iff]
    intro t ht
    simp [(q t ht).2.2.1]
  rw [this, List.append_nil]

theorem numberText_nat (printReal : ℚ → String) (n : Nat) (hn : n ≤ 9007199254740992) :
    numberText printReal (JSNumber.real (n : ℚ)) = toString n := by
  have hden : ((n : ℚ)).den = 1 := Rat.den_natCast n
  have hnum : ((n : ℚ)).num = (n : Int) := Rat.num_natCast n
  simp only [numberText, hden, hnum, Int.natAbs_ofNat, hn, and_self, if_true]
  rfl

/-- C15 fails as stated: at progress -5 the text `-5%` is not a valid width, the style
declaration ignores the assignment and the bar keeps its width of `10%`, while the
attribute and the text do take the new value. -/
theorem negative_progress_keeps_width :
    (updateAnalysisStatusResume samplePrinter sampleNegative samplePolling).progressBar
        = some ⟨"10%", "-5"⟩ ∧
      (updateAnalysisStatusResume samplePrinter sampleNegative samplePolling).progressText
        = some "-5%" ∧
      samplePolling.progressBar = some ⟨"10%", "10"⟩ :=
  ⟨rfl, rfl, rfl⟩

/-- C15 as amended: for a snapshot with numeric progress `p` whose status is neither
`completed` nor `failed`, with the progress bar and the progress text present,
`updateAnalysisStatus` sets the bar's `aria-valuenow` to `p` and the text to `p%`, sets the
bar's width to `p%` when `p` is a finite number that is not negative and leaves the width as
it was otherwise, sets the doughnut data to `[p, 100 - p]` when the chart exists, and leaves
`pollInterval` and the active polling timers as they were. For an integer `p` from 0 up to
2^53 the texts are the decimal numeral of `p`, followed by `%` for the width and the text. -/
theorem running_snapshot_keeps_polling (printReal : ℚ → String) (data : StatusSnapshot)
    (s : Analyzer) (bar : ProgressBar) (text : String) (hbar : s.progressBar = some bar)
    (htext : s.progressText = some text) (hc : data.status ≠ "completed")
    (hf : data.status ≠ "failed") :
    (updateAnalysisStatusResume printReal data s).progressBar
        = some ⟨if cssWidthAccepts data.progress then numberText printReal data.progress ++ "%"
                else bar.width,
               numberText printReal data.progress⟩ ∧
      (cssWidthAccepts data.progress = true ↔ ∃ q : ℚ, data.progress = JSNumber.real q ∧ 0 ≤ q) ∧
      (updateAnalysisStatusResume printReal data s).progressText
        = some (numberText printReal data.progress ++ "%") ∧
      (updateAnalysisStatusResume printReal data s).progressChart
        = s.progressChart.map
            (fun _ => [data.progress, jsSub (JSNumber.real 100) data.progress]) ∧
      (updateAnalysisStatusResume printReal data s).pollInterval = s.pollInterval ∧
      pollTimers (updateAnalysisStatusResume printReal data s) = pollTimers s ∧
      (∀ n : Nat, n ≤ 9007199254740992 → data.progress = JSNumber.real (n : ℚ) →
        (updateAnalysisStatusResume printReal data s).progressBar
            = some ⟨toString n ++ "%", toString n⟩ ∧
          (updateAnalysisStatusResume printReal data s).progressText
            = some (toString n ++ "%") ∧
          (updateAnalysisStatusResume printReal data s).progressChart
            = s.progressChart.map
                (fun _ => [JSNumber.real (n : ℚ), JSNumber.real (100 - (n : ℚ))])) := by
  have hres : updateAnalysisStatusResume printReal data s
      = updateAnalysisStats data (updateStatusText data (updateProgress printReal data s)) := by
    simp [updateAnalysisStatusResume, hc, hf]
  have hE := extends_display printReal data s
  obtain ⟨a1, a2, a3⟩ := updateAnalysisStats_progress data
    (updateStatusText data (updateProgress printReal data s))
  obtain ⟨b1, b2, b3⟩ := updateStatusText_progress data (updateProgress printReal data s)
  have hp : updateProgress printReal data s =
      { s with
        progressBar := some
          ⟨if cssWidthAccepts data.progress then numberText printReal data.progress ++ "%"
            else bar.width,
           numberText printReal data.progress⟩,
        progressText := some (numberText printReal data.progress ++ "%"),
        progressChart := s.progressChart.map
          (fun _ => [data.progress, jsSub (JSNumber.real 100) data.progress]) } := by
    simp only [updateProgress, hbar, htext]
  have h1 : (updateAnalysisStatusResume printReal data s).progressBar
      = some ⟨if cssWidthAccepts data.progress then numberText printReal data.progress ++ "%"
              else bar.width,
             numberText printReal data.progress⟩ := by
    rw [hres, a1, b1, hp]
  have h2 : (updateAnalysisStatusResume printReal data s).progressText
      = some (numberText printReal data.progress ++ "%") := by
    rw [hres, a2, b2, hp]
  have h3 : (updateAnalysisStatusResume printReal data s).progressChart
      = s.progressChart.map
          (fun _ => [data.progress, jsSub (JSNumber.real 100) data.progress]) := by
    rw [hres, a3, b3, hp]
  have hacc : cssWidthAccepts data.progress = true ↔
      ∃ q : ℚ, data.progress = JSNumber.real q ∧ 0 ≤ q := by
    cases hq : data.progress with
    | nan => simp [cssWidthAccepts]
    | negInf => simp [cssWidthAccepts]
    | posInf => simp [cssWidthAccepts]
    | real q => simp [cssWidthAccepts]
  refine ⟨h1, hacc, h2, h3, ?_, ?_, ?_⟩
  · rw [hres]; exact hE.1
  · rw [hres]; exact hE.pollTimers_eq
  · intro n hn hpn
    have hok : cssWidthAccepts data.progress = true :=
      hacc.mpr ⟨(n : ℚ), hpn, Nat.cast_nonneg n⟩
    refine ⟨?_, ?_, ?_⟩
    · rw [h1, hok, hpn, numberText_nat printReal n hn]
      rfl
    · rw [h2, hpn, numberText_nat printReal n hn]
    · rw [h3, hpn]
      rfl

/-- Witness of C15 as amended: the snapshot with progress 40 and status `running` on a page
that is polling. -/
theorem running_snapshot_keeps_polling_witness :
    (updateAnalysisStatusResume samplePrinter sampleRunning samplePolling).progressBar
        = some ⟨"40%", "40"⟩ ∧
      (updateAnalysisStatusResume samplePrinter sampleRunning samplePolling).progressText
        = some "40%" ∧
      (updateAnalysisStatusResume samplePrinter sampleRunning samplePolling).pollInterval
        = some 1 :=
  have h := running_snapshot_keeps_polling samplePrinter sampleRunning samplePolling
    ⟨"10%", "10"⟩ "10%" rfl rfl (by decide) (by decide)
  have h40 := h.2.2.2.2.2.2 40 (by decide) (by simp [sampleRunning])
  ⟨h40.1, h40.2.1, h.2.2.2.2.1⟩

/-- C16, evaluated on the code: the counter that displays 1234 shows `1,234`, and `parseInt`
reads that text back as 1, so an update whose new value is the displayed 1234 installs a
counting timer that starts again from 1 and needs 1233 steps. -/
theorem grouped_counter_read_back_as_one :
    toLocaleString 1234 = "1,234" ∧ parseInt (toLocaleString 1234) = some 1 ∧
      (animateNumberUpdate "total_videos_analyzed" (toLocaleString 1234) 1234
          sampleCounting).timers.active
        = sampleCounting.timers.active ++
          [⟨2, true, 1000 / 1233,
            TimerAction.counterStep "total_videos_analyzed" 1 1234 1⟩] ∧
      animateNumberUpdate "total_videos_analyzed" "1234" 1234 sampleCounting
        = sampleCounting := by
  have hp : parseInt (toLocaleString 1234) = some 1 := by decide
  have hd : ((1234 : Int) - 1).natAbs = 1233 := by decide
  refine ⟨by decide, hp, ?_, ?_⟩
  · rw [animateNumberUpdate_timer _ _ _ _ (by rw [hp]; decide)]
    simp only [hp, Option.getD_some, hd, stepDurationFor_large 1233 (by decide)]
    simp [sampleCounting]
  · have h0 : (parseInt "1234").getD 0 = 1234 := by decide
    simp [animateNumberUpdate, h0]

end NicheHunter
